import Mathlib

/-! Verification of the saturday-ast interpreter core.

This file gives a shallow embedding, in Lean, of the Rust sources of the
saturday-ast tree-walking interpreter: the recursive-descent parser
(src/parser.rs), the static resolver (src/resolver.rs), the tree-walking
interpreter (src/interpreter.rs), the runtime value model (src/object.rs,
src/callable.rs, src/saturday_class.rs, src/saturday_instance.rs), the
result type (src/error.rs), and the driver decision logic (src/main.rs).
Reference-counted sharing is modelled by arena indices (environment ids,
instance ids), f64 payloads by Float, HashMap tables by association lists,
Rust panics (todo! and unwrap on None) by a distinguished panicked outcome,
and the non-terminating recursion of the Rust code by an explicit fuel
parameter (fuel exhaustion is a distinguished fuelOut outcome, separate
from every behaviour of the source program).

A handful of items the embedded code depends on are not present under the
repository sources (environment.rs, saturday_function.rs,
native_functions.rs, token.rs, and a few visitor arms that postdate the
checked-in snapshot of a file); each such definition carries a doc comment
starting with: Modelled from the spec. Everything else is translated
directly from the Rust source, statement by statement. -/

set_option linter.unusedVariables false

namespace Saturday

/-- Token kinds of the language, as consumed by src/parser.rs
(token_type.rs itself is not under src/; the constructor set is exactly
the set of kinds the parser matches on). -/
inductive TokenType where
  | LeftParen | RightParen | LeftBrace | RightBrace
  | Comma | Dot | Minus | Plus | SemiColon | Slash | Star
  | Bang | BangEqual | Assign | Equal
  | Greater | GreaterEqual | Less | LessEqual
  | Identifier | String | Number
  | And | Class | Else | False | Fun | For | If | Nil | Or
  | Print | Return | True | Def | Var | While | Break | Eof
deriving DecidableEq

mutual

/-- Runtime value model, src/object.rs (spec section 3). The snapshot of
object.rs under src/ predates classes; the classObj and instanceObj
constructors follow spec section 3 (Object: ... Class(shared Class),
Instance(shared Instance)). An instance value is an index into the
interpreter state instance arena, modelling the shared Rc handle. -/
inductive Object where
  | num (x : Float)
  | str (s : String)
  | bool (b : Bool)
  | func (c : Callable)
  | classObj (c : SaturdayClass)
  | instanceObj (iid : Nat)
  | nil
  | arithmeticError

/-- The callable capability, src/callable.rs: a shared handle to an
implementation of call/arity. The implementations are the native clock
(native_functions.rs, absent from src/) and user-defined functions
(saturday_function.rs, absent from src/): a function statement body
plus the environment id captured at definition time. -/
inductive Callable where
  | nativeClock
  | saturdayFunction (name : Token) (params : List Token) (body : List Stmt) (closure : Nat)

/-- A class: name plus the method table, src/saturday_class.rs. -/
inductive SaturdayClass where
  | mk (name : String) (methods : List (String × Object))

/-- A lexical token: kind, lexeme, optional literal payload, source line
(token.rs is not under src/; the shape is fixed by spec section 3). -/
inductive Token where
  | mk (tokenType : TokenType) (lexeme : String) (literal : Option Object) (line : Nat)

/-- Expression nodes, as generated by generate_ast/mod.rs and extended by
the parser snapshot (src/parser.rs imports Assign, Binary, Call, Get,
Grouping, Literal, Logical, Set, Unary, Variable). -/
inductive Expr where
  | assign (name : Token) (value : Expr)
  | binary (left : Expr) (operator : Token) (right : Expr)
  | call (callee : Expr) (paren : Token) (arguments : List Expr)
  | get (object : Expr) (name : Token)
  | set (object : Expr) (name : Token) (value : Expr)
  | grouping (expression : Expr)
  | literal (value : Option Object)
  | logical (left : Expr) (operator : Token) (right : Expr)
  | unary (operator : Token) (right : Expr)
  | variable (name : Token)

/-- Statement nodes (src/parser.rs imports Block, Break, Class, Def,
Expression, Function, If, Print, Return, While). -/
inductive Stmt where
  | block (statements : List Stmt)
  | breakStmt (token : Token)
  | expression (expression : Expr)
  | ifStmt (condition : Expr) (then_branch : Stmt) (else_branch : Option Stmt)
  | print (expression : Expr)
  | defStmt (name : Token) (initializer : Option Expr)
  | whileStmt (condition : Expr) (body : Stmt)
  | function (name : Token) (params : List Token) (body : List Stmt)
  | returnStmt (keyword : Token) (value : Option Expr)
  | classStmt (name : Token) (methods : List Stmt)

end

/-- An instance: its owning class and the mutable field table,
src/saturday_instance.rs. -/
structure SaturdayInstance where
  class' : SaturdayClass
  fields : List (String × Object)

/-- The discriminated result type of src/error.rs, extended with the two
constructors later snapshots of the code construct on it: returnValue
(src/interpreter.rs, visit_return_stmt builds it via return_value) and
systemError (src/saturday_class.rs builds it via system_error). The
lineError constructor is the Error variant of error.rs. -/
inductive SaturdayResult where
  | parseError (token : Token) (message : String)
  | runtimeError (token : Token) (message : String)
  | lineError (line : Nat) (message : String)
  | breakSignal
  | returnValue (value : Object)
  | systemError (message : String)

/-- Outcome of running a piece of embedded code: a value, a thrown
SaturdayResult (the Err channel of the Rust Result type), a Rust panic
(todo! or unwrap on None), or exhaustion of the embedding fuel. -/
inductive Res (α : Type) where
  | ok (a : α)
  | thr (e : SaturdayResult)
  | panicked (msg : String)
  | fuelOut

/-- State-threading computation with the Res outcome: the shape shared by
the parser, the resolver and the interpreter embeddings. -/
def EM (σ : Type) (α : Type) : Type := σ → Res α × σ

def EM.pure (a : α) : EM σ α := fun s => (.ok a, s)

def EM.bind (x : EM σ α) (f : α → EM σ β) : EM σ β := fun s =>
  match x s with
  | (.ok a, s') => f a s'
  | (.thr e, s') => (.thr e, s')
  | (.panicked m, s') => (.panicked m, s')
  | (.fuelOut, s') => (.fuelOut, s')

instance : Monad (EM σ) where
  pure := EM.pure
  bind := EM.bind

/-- The Err short-circuit of the Rust question-mark operator. -/
def EM.throw (e : SaturdayResult) : EM σ α := fun s => (.thr e, s)

/-- A Rust panic: unwinds past every Result-based handler. -/
def EM.panics (msg : String) : EM σ α := fun s => (.panicked msg, s)

def EM.fuelOutM : EM σ α := fun s => (.fuelOut, s)

def EM.getS : EM σ σ := fun s => (.ok s, s)

def EM.modifyS (f : σ → σ) : EM σ Unit := fun s => (.ok (), f s)

/-- Runs a computation and reifies its ok/Err outcome as a value, the way
Rust code holding a Result value (rather than applying the question-mark
operator) does. A panic is not caught: it unwinds further. -/
def EM.capture (x : EM σ α) : EM σ (Except SaturdayResult α) := fun s =>
  match x s with
  | (.ok a, s') => (.ok (.ok a), s')
  | (.thr e, s') => (.ok (.error e), s')
  | (.panicked m, s') => (.panicked m, s')
  | (.fuelOut, s') => (.fuelOut, s')

theorem EM.pure_apply (a : α) (s : σ) : (Pure.pure a : EM σ α) s = (.ok a, s) := rfl

theorem EM.bind_apply (x : EM σ α) (f : α → EM σ β) (s : σ) :
    (x >>= f) s =
      match x s with
      | (.ok a, s') => f a s'
      | (.thr e, s') => (.thr e, s')
      | (.panicked m, s') => (.panicked m, s')
      | (.fuelOut, s') => (.fuelOut, s') := rfl

theorem EM.throw_apply (e : SaturdayResult) (s : σ) :
    (EM.throw e : EM σ α) s = (.thr e, s) := rfl

theorem EM.getS_apply (s : σ) : (EM.getS : EM σ σ) s = (.ok s, s) := rfl

theorem EM.modifyS_apply (f : σ → σ) (s : σ) : (EM.modifyS f) s = (.ok (), f s) := rfl

theorem EM.capture_apply (x : EM σ α) (s : σ) :
    (EM.capture x) s =
      match x s with
      | (.ok a, s') => (.ok (.ok a), s')
      | (.thr e, s') => (.ok (.error e), s')
      | (.panicked m, s') => (.panicked m, s')
      | (.fuelOut, s') => (.fuelOut, s') := rfl

end Saturday

namespace Saturday

def Token.tokenType : Token → TokenType
  | .mk t _ _ _ => t

def Token.lexeme : Token → String
  | .mk _ l _ _ => l

def Token.literal : Token → Option Object
  | .mk _ _ v _ => v

def Token.line : Token → Nat
  | .mk _ _ _ n => n

/-- Token duplication (token.rs dup): tokens are immutable values, so a
duplicate is the value itself. -/
def Token.dup (t : Token) : Token := t

/-- Kind test on a token (token.rs is). -/
def Token.is (t : Token) (k : TokenType) : Bool := t.tokenType = k

/-- Modelled from the spec: token.rs is absent from src/; as_string is the
lexeme text of the token (spec section 3, Token). -/
def Token.as_string (t : Token) : String := t.lexeme

/-- Parser state, src/parser.rs lines 15-19: the borrowed token slice, the
cursor, and the sticky error flag. -/
structure ParserState where
  tokens : List Token
  current : Nat
  had_error : Bool

abbrev PM (α : Type) : Type := EM ParserState α

namespace Parser

/-- src/parser.rs peek: tokens.get(current).unwrap() — panics past the end. -/
def peekM : PM Token := fun p =>
  match p.tokens.get? p.current with
  | some t => (.ok t, p)
  | none => (.panicked ("index out of bounds"), p)

/-- src/parser.rs previous: tokens.get(current - 1).unwrap(); current = 0
underflows the unsigned cursor and panics. -/
def previousM : PM Token := fun p =>
  if p.current = 0 then (.panicked ("attempt to subtract with overflow"), p)
  else match p.tokens.get? (p.current - 1) with
    | some t => (.ok t, p)
    | none => (.panicked ("index out of bounds"), p)

/-- src/parser.rs is_at_end: the lookahead token is the end marker. -/
def is_at_end : PM Bool := do
  let t ← peekM
  pure (t.is .Eof)

/-- src/parser.rs advance. -/
def advance : PM Token := do
  let e ← is_at_end
  if e then previousM else do
    EM.modifyS (fun p => { p with current := p.current + 1 })
    previousM

/-- src/parser.rs check. -/
def check (t_type : TokenType) : PM Bool := do
  let e ← is_at_end
  if e then pure false else do
    let t ← peekM
    pure (t.is t_type)

/-- src/parser.rs is_match: consumes the lookahead if its kind is listed. -/
def is_match : List TokenType → PM Bool
  | [] => pure false
  | t :: ts => do
    let c ← check t
    if c then do
      let _ ← advance
      pure true
    else is_match ts

/-- src/parser.rs error: sets the sticky flag and builds the typed parse
failure (the side-channel report is presentation only and not modelled). -/
def error (token : Token) (message : String) : PM SaturdayResult := do
  EM.modifyS (fun p => { p with had_error := true })
  pure (.parseError token message)

/-- src/parser.rs consume. -/
def consume (t_token : TokenType) (message : String) : PM Token := do
  let c ← check t_token
  if c then do
    let t ← advance
    pure t.dup
  else do
    let pk ← peekM
    let e ← error pk.dup message
    EM.throw e

/-- The token kinds that begin a declaration or statement, from the match
in src/parser.rs synchronize (lines 546-557). -/
def declStart (t : TokenType) : Bool :=
  match t with
  | .Class | .Fun | .Var | .Def | .For | .If | .While | .Print | .Return => true
  | _ => false

/-- The loop of src/parser.rs synchronize (lines 541-562). -/
def syncLoop : Nat → PM Unit
  | 0 => EM.fuelOutM
  | fuel+1 => do
    let e ← is_at_end
    if e then pure () else do
      let pr ← previousM
      if pr.is .SemiColon then pure () else do
        let pk ← peekM
        if declStart pk.tokenType then pure () else do
          let _ ← advance
          syncLoop fuel

/-- src/parser.rs synchronize (lines 538-563): discard tokens until a
statement boundary. -/
def synchronize (fuel : Nat) : PM Unit := do
  let _ ← advance
  syncLoop fuel

end Parser

end Saturday

namespace Saturday

namespace Parser

mutual

/-- src/parser.rs parse (lines 35-42): parse declarations until the end
marker; the question-mark operator propagates the first failure. -/
def parse : Nat → PM (List Stmt)
  | 0 => EM.fuelOutM
  | fuel+1 => do
    let e ← is_at_end
    if e then pure [] else do
      let s ← declaration fuel
      let rest ← parse fuel
      pure (s :: rest)

/-- src/parser.rs declaration (lines 44-60): dispatch on the leading
token; on an Err result synchronize, then return the Err unchanged. -/
def declaration : Nat → PM Stmt
  | 0 => EM.fuelOutM
  | fuel+1 => do
    let result ← EM.capture (do
      let c ← is_match [.Class]
      if c then class_declaration fuel else do
      let f ← is_match [.Fun]
      if f then function fuel ("function") else do
      let d ← is_match [.Def]
      if d then def_declaration fuel else statement fuel)
    match result with
    | .ok st => pure st
    | .error e => do
      synchronize fuel
      EM.throw e

/-- src/parser.rs def_declaration (lines 62-75). -/
def def_declaration : Nat → PM Stmt
  | 0 => EM.fuelOutM
  | fuel+1 => do
    let name ← consume .Identifier ("Expect variable name.")
    let m ← is_match [.Assign]
    let initializer ← if m then do
        let e ← expression fuel
        pure (some e)
      else pure none
    let _ ← consume .SemiColon ("Expect \x27;\x27 after variable declaration")
    pure (Stmt.defStmt name initializer)

/-- src/parser.rs class_declaration (lines 94-108). -/
def class_declaration : Nat → PM Stmt
  | 0 => EM.fuelOutM
  | fuel+1 => do
    let name ← consume .Identifier ("Expect class name.")
    let _ ← consume .LeftBrace ("Expect \x27\x7b\x27 before class body.")
    let methods ← classMethodsLoop fuel
    let _ ← consume .RightBrace ("Expect \x27\x7d\x27 after class body.")
    pure (Stmt.classStmt name methods)

/-- The method-collection loop of class_declaration (lines 98-101). -/
def classMethodsLoop : Nat → PM (List Stmt)
  | 0 => EM.fuelOutM
  | fuel+1 => do
    let r ← check .RightBrace
    let e ← is_at_end
    if !r && !e then do
      let m ← function fuel ("method")
      let rest ← classMethodsLoop fuel
      pure (m :: rest)
    else pure []

/-- src/parser.rs statement (lines 110-144). -/
def statement : Nat → PM Stmt
  | 0 => EM.fuelOutM
  | fuel+1 => do
    let b ← is_match [.Break]
    if b then do
      let prev ← previousM
      let token := prev.dup
      let _ ← consume .SemiColon ("expect \x27;\x27 after break statement.")
      pure (Stmt.breakStmt token)
    else do
    let f ← is_match [.For]
    if f then for_statement fuel else do
    let i ← is_match [.If]
    if i then if_statement fuel else do
    let p ← is_match [.Print]
    if p then print_statement fuel else do
    let r ← is_match [.Return]
    if r then return_statement fuel else do
    let w ← is_match [.While]
    if w then while_statement fuel else do
    let lb ← is_match [.LeftBrace]
    if lb then do
      let stmts ← block fuel
      pure (Stmt.block stmts)
    else expression_statement fuel

/-- src/parser.rs for_statement (lines 146-201): desugars for into a
While wrapped in Blocks. -/
def for_statement : Nat → PM Stmt
  | 0 => EM.fuelOutM
  | fuel+1 => do
    let sc ← is_match [.SemiColon]
    let initializer ← if sc then pure none else do
      let d ← is_match [.Def]
      if d then do
        let s ← def_declaration fuel
        pure (some s)
      else do
        let s ← expression_statement fuel
        pure (some s)
    let cc ← check .SemiColon
    let condition ← if cc then pure (none : Option Expr) else do
      let e ← expression fuel
      pure (some e)
    let _ ← consume .SemiColon ("Expect \x27;\x27 after loop condition.")
    let lb ← check .LeftBrace
    let increment ← if lb then pure (none : Option Expr) else do
      let e ← expression fuel
      pure (some e)
    let body0 ← statement fuel
    let body1 := match increment with
      | some incr => Stmt.block [body0, Stmt.expression incr]
      | none => body0
    let body2 := Stmt.whileStmt
      (match condition with
        | some cond => cond
        | none => Expr.literal (some (Object.bool true)))
      body1
    let body3 := match initializer with
      | some init => Stmt.block [init, body2]
      | none => body2
    pure body3

/-- src/parser.rs while_statement (lines 77-88): condition without
parentheses, body must be brace-delimited (direct parse_error, the
sticky flag is not set on this path). -/
def while_statement : Nat → PM Stmt
  | 0 => EM.fuelOutM
  | fuel+1 => do
    let condition ← expression fuel
    let pk ← peekM
    if !(pk.is .LeftBrace) then
      EM.throw (.parseError pk ("while must wrap by \x27\x7b\x7d\x27."))
    else do
      let body ← statement fuel
      pure (Stmt.whileStmt condition body)

/-- src/parser.rs if_statement (lines 203-232): condition without
parentheses, branches must be brace-delimited (direct parse_error, the
sticky flag is not set on this path). -/
def if_statement : Nat → PM Stmt
  | 0 => EM.fuelOutM
  | fuel+1 => do
    let condition ← expression fuel
    let pk ← peekM
    if !(pk.is .LeftBrace) then
      EM.throw (.parseError pk ("then branch must wrap by \x27\x7b\x7d\x27."))
    else do
      let then_branch ← statement fuel
      let el ← is_match [.Else]
      let else_branch ← if el then do
          let pk2 ← peekM
          if !(pk2.is .LeftBrace) then
            EM.throw (.parseError pk2 ("else branch must wrap by \x27\x7b\x7d\x27."))
          else do
            let s ← statement fuel
            pure (some s)
        else pure none
      pure (Stmt.ifStmt condition then_branch else_branch)

/-- src/parser.rs print_statement (lines 234-238). -/
def print_statement : Nat → PM Stmt
  | 0 => EM.fuelOutM
  | fuel+1 => do
    let value ← expression fuel
    let _ ← consume .SemiColon ("Expect \x27;\x27 after value.")
    pure (Stmt.print value)

/-- src/parser.rs return_statement (lines 240-250). -/
def return_statement : Nat → PM Stmt
  | 0 => EM.fuelOutM
  | fuel+1 => do
    let prev ← previousM
    let keyword := prev.dup
    let cc ← check .SemiColon
    let value ← if cc then pure (none : Option Expr) else do
      let e ← expression fuel
      pure (some e)
    let _ ← consume .SemiColon ("Expect \x27;\x27 after return value.")
    pure (Stmt.returnStmt keyword value)

/-- src/parser.rs expression_statement (lines 252-258). -/
def expression_statement : Nat → PM Stmt
  | 0 => EM.fuelOutM
  | fuel+1 => do
    let expr ← expression fuel
    let _ ← consume .SemiColon ("Expect \x27;\x27 after value.")
    pure (Stmt.expression expr)

/-- src/parser.rs function (lines 260-292). -/
def function : Nat → String → PM Stmt
  | 0, _ => EM.fuelOutM
  | fuel+1, kind => do
    let name ← consume .Identifier ("Expect " ++ kind ++ " name")
    let _ ← consume .LeftParen ("Expect \x27(\x27 after " ++ kind ++ " name.")
    let rp ← check .RightParen
    let params ← if rp then pure [] else do
      let first ← consume .Identifier ("Expect parameter name")
      paramsLoop fuel [first]
    let _ ← consume .RightParen ("Expect \x27)\x27 after parameters.")
    let _ ← consume .LeftBrace ("Expect \x27\x7b\x27 before " ++ kind ++ " body")
    let body ← block fuel
    pure (Stmt.function name params body)

/-- The parameter loop of function (lines 268-278): past 255 parameters
the error is recorded once (sticky flag) but the parameter is still
consumed and parsing continues. -/
def paramsLoop : Nat → List Token → PM (List Token)
  | 0, _ => EM.fuelOutM
  | fuel+1, params => do
    let c ← is_match [.Comma]
    if c then do
      let p ← EM.getS
      let _ ← if params.length ≥ 255 && !p.had_error then do
          let pk ← peekM
          let _ ← error pk.dup ("Can\x27t have more than 255 parameters.")
          pure ()
        else pure ()
      let nxt ← consume .Identifier ("Expect parameter name")
      paramsLoop fuel (params ++ [nxt])
    else pure params

/-- src/parser.rs block (lines 294-302). -/
def block : Nat → PM (List Stmt)
  | 0 => EM.fuelOutM
  | fuel+1 => do
    let stmts ← blockLoop fuel
    let _ ← consume .RightBrace ("Expect \x27\x7d\x27 after block.")
    pure stmts

/-- The statement-collection loop of block (lines 296-299). -/
def blockLoop : Nat → PM (List Stmt)
  | 0 => EM.fuelOutM
  | fuel+1 => do
    let r ← check .RightBrace
    let e ← is_at_end
    if !r && !e then do
      let s ← declaration fuel
      let rest ← blockLoop fuel
      pure (s :: rest)
    else pure []

/-- src/parser.rs expression (lines 90-92). -/
def expression : Nat → PM Expr
  | 0 => EM.fuelOutM
  | fuel+1 => assignment fuel

/-- src/parser.rs assignment (lines 304-328): right-associative; a
Variable target becomes Assign, a Get target becomes Set, anything else
records an invalid-assignment-target error but returns the expression. -/
def assignment : Nat → PM Expr
  | 0 => EM.fuelOutM
  | fuel+1 => do
    let expr ← or fuel
    let m ← is_match [.Assign]
    if m then do
      let prev ← previousM
      let equals := prev.dup
      let value ← assignment fuel
      match expr with
      | .variable vname => pure (Expr.assign vname.dup value)
      | .get object gname => pure (Expr.set object gname value)
      | _ => do
        let _ ← error equals ("Invalid assignment target.")
        pure expr
    else pure expr

/-- src/parser.rs or (lines 330-344). -/
def or : Nat → PM Expr
  | 0 => EM.fuelOutM
  | fuel+1 => do
    let e ← and fuel
    orLoop fuel e

/-- The logical-or left-association loop (lines 333-341). -/
def orLoop : Nat → Expr → PM Expr
  | 0, _ => EM.fuelOutM
  | fuel+1, expr => do
    let m ← is_match [.Or]
    if m then do
      let prev ← previousM
      let operator := prev.dup
      let right ← and fuel
      orLoop fuel (Expr.logical expr operator right)
    else pure expr

/-- src/parser.rs and (lines 346-360). -/
def and : Nat → PM Expr
  | 0 => EM.fuelOutM
  | fuel+1 => do
    let e ← equality fuel
    andLoop fuel e

/-- The logical-and left-association loop (lines 349-357). -/
def andLoop : Nat → Expr → PM Expr
  | 0, _ => EM.fuelOutM
  | fuel+1, expr => do
    let m ← is_match [.And]
    if m then do
      let prev ← previousM
      let operator := prev.dup
      let right ← equality fuel
      andLoop fuel (Expr.logical expr operator right)
    else pure expr

/-- src/parser.rs equality (lines 362-376). -/
def equality : Nat → PM Expr
  | 0 => EM.fuelOutM
  | fuel+1 => do
    let e ← comparison fuel
    equalityLoop fuel e

/-- The equality left-association loop (lines 365-373). -/
def equalityLoop : Nat → Expr → PM Expr
  | 0, _ => EM.fuelOutM
  | fuel+1, expr => do
    let m ← is_match [.BangEqual, .Equal]
    if m then do
      let prev ← previousM
      let operator := prev.dup
      let right ← comparison fuel
      equalityLoop fuel (Expr.binary expr operator right)
    else pure expr

/-- src/parser.rs comparison (lines 378-396). -/
def comparison : Nat → PM Expr
  | 0 => EM.fuelOutM
  | fuel+1 => do
    let e ← term fuel
    comparisonLoop fuel e

/-- The comparison left-association loop (lines 380-393). -/
def comparisonLoop : Nat → Expr → PM Expr
  | 0, _ => EM.fuelOutM
  | fuel+1, expr => do
    let m ← is_match [.Greater, .GreaterEqual, .Less, .LessEqual]
    if m then do
      let prev ← previousM
      let operator := prev.dup
      let right ← term fuel
      comparisonLoop fuel (Expr.binary expr operator right)
    else pure expr

/-- src/parser.rs term (lines 398-411). -/
def term : Nat → PM Expr
  | 0 => EM.fuelOutM
  | fuel+1 => do
    let e ← factor fuel
    termLoop fuel e

/-- The additive left-association loop (lines 400-408). -/
def termLoop : Nat → Expr → PM Expr
  | 0, _ => EM.fuelOutM
  | fuel+1, expr => do
    let m ← is_match [.Minus, .Plus]
    if m then do
      let prev ← previousM
      let operator := prev.dup
      let right ← factor fuel
      termLoop fuel (Expr.binary expr operator right)
    else pure expr

/-- src/parser.rs factor (lines 413-426). -/
def factor : Nat → PM Expr
  | 0 => EM.fuelOutM
  | fuel+1 => do
    let e ← unary fuel
    factorLoop fuel e

/-- The multiplicative left-association loop (lines 415-423). -/
def factorLoop : Nat → Expr → PM Expr
  | 0, _ => EM.fuelOutM
  | fuel+1, expr => do
    let m ← is_match [.Slash, .Star]
    if m then do
      let prev ← previousM
      let operator := prev.dup
      let right ← unary fuel
      factorLoop fuel (Expr.binary expr operator right)
    else pure expr

/-- src/parser.rs unary (lines 428-439). -/
def unary : Nat → PM Expr
  | 0 => EM.fuelOutM
  | fuel+1 => do
    let m ← is_match [.Bang, .Minus]
    if m then do
      let prev ← previousM
      let operator := prev.dup
      let right ← unary fuel
      pure (Expr.unary operator right)
    else call fuel

/-- src/parser.rs call (lines 441-458). -/
def call : Nat → PM Expr
  | 0 => EM.fuelOutM
  | fuel+1 => do
    let e ← primary fuel
    callLoop fuel e

/-- The call/property-access loop (lines 443-455). -/
def callLoop : Nat → Expr → PM Expr
  | 0, _ => EM.fuelOutM
  | fuel+1, expr => do
    let lp ← is_match [.LeftParen]
    if lp then do
      let e ← finish_call fuel expr
      callLoop fuel e
    else do
      let d ← is_match [.Dot]
      if d then do
        let name ← consume .Identifier ("Expect property name after \x27.\x27.")
        callLoop fuel (Expr.get expr name)
      else pure expr

/-- src/parser.rs finish_call (lines 461-482). -/
def finish_call : Nat → Expr → PM Expr
  | 0, _ => EM.fuelOutM
  | fuel+1, callee => do
    let rp ← check .RightParen
    let arguments ← if rp then pure [] else do
      let first ← expression fuel
      argsLoop fuel [first]
    let paren ← consume .RightParen ("Expect \x27)\x27 after arguments.")
    pure (Expr.call callee paren arguments)

/-- The argument loop of finish_call (lines 463-474): past 255 arguments
the error is recorded, the flag is set again explicitly, and the
argument after the comma is not parsed on that iteration. -/
def argsLoop : Nat → List Expr → PM (List Expr)
  | 0, _ => EM.fuelOutM
  | fuel+1, arguments => do
    let c ← is_match [.Comma]
    if c then do
      let p ← EM.getS
      if arguments.length ≥ 255 && !p.had_error then do
        let pk ← peekM
        let _ ← error pk.dup ("Can\x27t have more than 255 arguments.")
        EM.modifyS (fun q => { q with had_error := true })
        argsLoop fuel arguments
      else do
        let nxt ← expression fuel
        argsLoop fuel (arguments ++ [nxt])
    else pure arguments

/-- src/parser.rs primary (lines 484-523). -/
def primary : Nat → PM Expr
  | 0 => EM.fuelOutM
  | fuel+1 => do
    let f ← is_match [.False]
    if f then pure (Expr.literal (some (Object.bool false))) else do
    let t ← is_match [.True]
    if t then pure (Expr.literal (some (Object.bool true))) else do
    let n ← is_match [.Nil]
    if n then pure (Expr.literal (some Object.nil)) else do
    let ns ← is_match [.Number, .String]
    if ns then do
      let prev ← previousM
      pure (Expr.literal prev.literal)
    else do
    let id ← is_match [.Identifier]
    if id then do
      let prev ← previousM
      pure (Expr.variable prev.dup)
    else do
    let lp ← is_match [.LeftParen]
    if lp then do
      let e ← expression fuel
      let _ ← consume .RightParen ("Expect \x27)\x27 after expression")
      pure (Expr.grouping e)
    else do
      let pk ← peekM
      EM.throw (.parseError pk.dup ("Expect expression."))

end

end Parser

/-- src/parser.rs new (lines 22-28). -/
def newParser (tokens : List Token) : ParserState :=
  { tokens := tokens, current := 0, had_error := false }

/-- src/parser.rs success (lines 30-32). -/
def ParserState.success (p : ParserState) : Bool := !p.had_error

end Saturday

namespace Saturday

/-- Association-table insert with the Rust HashMap insert semantics:
replace the value when the key is present, add the entry otherwise. -/
def tblInsert (t : List (String × α)) (k : String) (v : α) : List (String × α) :=
  match t with
  | [] => [(k, v)]
  | (k', v') :: rest => if k' = k then (k, v) :: rest else (k', v') :: tblInsert rest k v

/-- Association-table lookup (Rust HashMap get). -/
def tblLookup (t : List (String × α)) (k : String) : Option α :=
  match t with
  | [] => none
  | (k', v') :: rest => if k' = k then some v' else tblLookup rest k

/-- Resolver state, src/resolver.rs lines 17-20: the scope stack (head is
the innermost frame; each frame maps a name to its initialized flag) and
the side-table writes made through interpreter.resolve. The Rust table is
keyed by node identity (Rc pointer); the embedding records the write
events in order as (name, hop count) pairs, which the claims consume. -/
structure RState where
  scopes : List (List (String × Bool))
  locals : List (String × Nat)

abbrev RM (α : Type) : Type := EM RState α

namespace Resolver

/-- src/resolver.rs begin_scope (lines 46-48). -/
def begin_scope : RM Unit :=
  EM.modifyS (fun r => { r with scopes := [] :: r.scopes })

/-- src/resolver.rs end_scope (lines 50-52): Vec pop; popping an empty
stack is a no-op. -/
def end_scope : RM Unit :=
  EM.modifyS (fun r => { r with scopes := r.scopes.tail })

/-- src/resolver.rs declare (lines 54-66): no-op with no active scope,
otherwise mark the name not-yet-initialized in the innermost frame. -/
def declare (name : Token) : RM Unit := fun r =>
  match r.scopes with
  | [] => (.ok (), r)
  | sc :: rest => (.ok (), { r with scopes := tblInsert sc name.as_string false :: rest })

/-- src/resolver.rs define (lines 68-80): no-op with no active scope,
otherwise mark the name initialized in the innermost frame. -/
def define (name : Token) : RM Unit := fun r =>
  match r.scopes with
  | [] => (.ok (), r)
  | sc :: rest => (.ok (), { r with scopes := tblInsert sc name.as_string true :: rest })

/-- The scan of src/resolver.rs resolve_local (lines 82-89): innermost
scope first, hop count = distance from the top of the stack. -/
def resolve_localGo : List (List (String × Bool)) → Nat → String → Option Nat
  | [], _, _ => none
  | sc :: rest, i, key =>
    if (tblLookup sc key).isSome then some i else resolve_localGo rest (i + 1) key

/-- src/resolver.rs resolve_local (lines 82-89): record the hop count of
the first scope containing the name; a name in no scope records nothing. -/
def resolve_local (name : Token) : RM Unit := fun r =>
  match resolve_localGo r.scopes 0 name.as_string with
  | some i => (.ok (), { r with locals := r.locals ++ [(name.as_string, i)] })
  | none => (.ok (), r)

/-- src/resolver.rs visit_variable_expr (lines 215-239): with at least one
active scope the innermost frame is consulted with get(...)
.copied().unwrap() — a name absent from the innermost frame panics the
resolver; flag false is the self-initializer error; flag true (or no
active scope at all) falls through to resolve_local. -/
def visit_variable_expr (name : Token) : RM Unit := fun r =>
  match r.scopes with
  | [] => (resolve_local name) r
  | sc :: _ =>
    match tblLookup sc name.as_string with
    | none => (.panicked ("called Option::unwrap on a None value"), r)
    | some false =>
      (.thr (.runtimeError name ("Can\x27t read local variable in its own initializer.")), r)
    | some true => (resolve_local name) r

/-- The parameter declarations of src/resolver.rs resolve_function
(lines 94-97): parameters are declared and defined immediately. -/
def declParams : List Token → RM Unit
  | [] => pure ()
  | p :: ps => do
    declare p
    define p
    declParams ps

mutual

/-- src/resolver.rs StmtVisitor impl (lines 104-171). The Break arm is
the literal todo! of lines 112-114. The Class arm is Modelled from the
spec section 4.2 (this resolver snapshot predates class statements):
declare and define the class name, then resolve each method like a
function. -/
def resolveStmt : Nat → Stmt → RM Unit
  | 0, _ => EM.fuelOutM
  | fuel+1, st =>
    match st with
    | .block statements => do
        begin_scope
        resolveList fuel statements
        end_scope
    | .breakStmt _ => EM.panics ("not yet implemented")
    | .expression e => resolveExpr fuel e
    | .function name params body => do
        declare name
        define name
        resolve_function fuel params body
    | .ifStmt c t els => do
        resolveExpr fuel c
        resolveStmt fuel t
        match els with
        | some el => resolveStmt fuel el
        | none => pure ()
    | .print e => resolveExpr fuel e
    | .returnStmt _ v =>
        (match v with
         | some value => resolveExpr fuel value
         | none => pure ())
    | .defStmt name init => do
        declare name
        (match init with
         | some i => resolveExpr fuel i
         | none => pure ())
        define name
    | .whileStmt c b => do
        resolveExpr fuel c
        resolveStmt fuel b
    | .classStmt name methods => do
        declare name
        define name
        resolveMethods fuel methods

/-- Method resolution for the spec-modelled Class arm: each method is
resolved like a function body (spec section 4.2). -/
def resolveMethods : Nat → List Stmt → RM Unit
  | 0, _ => EM.fuelOutM
  | _+1, [] => pure ()
  | fuel+1, m :: rest => do
    (match m with
     | .function _ params body => resolve_function fuel params body
     | _ => pure ())
    resolveMethods fuel rest

/-- src/resolver.rs resolve (lines 30-36): each statement in order, the
question-mark operator stopping at the first failure. -/
def resolveList : Nat → List Stmt → RM Unit
  | 0, _ => EM.fuelOutM
  | _+1, [] => pure ()
  | fuel+1, s :: ss => do
    resolveStmt fuel s
    resolveList fuel ss

/-- src/resolver.rs ExprVisitor impl (lines 173-240). The Get and Set
arms are Modelled from the spec section 4.2 (this resolver snapshot
predates property access): their subexpressions are resolved. -/
def resolveExpr : Nat → Expr → RM Unit
  | 0, _ => EM.fuelOutM
  | fuel+1, e =>
    match e with
    | .assign name value => do
        resolveExpr fuel value
        resolve_local name
    | .binary l _ r => do
        resolveExpr fuel l
        resolveExpr fuel r
    | .call callee _ args => do
        resolveExpr fuel callee
        resolveArgs fuel args
    | .get o _ => resolveExpr fuel o
    | .set o _ v => do
        resolveExpr fuel o
        resolveExpr fuel v
    | .grouping g => resolveExpr fuel g
    | .literal _ => pure ()
    | .logical l _ r => do
        resolveExpr fuel l
        resolveExpr fuel r
    | .unary _ r => resolveExpr fuel r
    | .variable name => visit_variable_expr name

/-- The argument loop of src/resolver.rs visit_call_expr (lines 186-193). -/
def resolveArgs : Nat → List Expr → RM Unit
  | 0, _ => EM.fuelOutM
  | _+1, [] => pure ()
  | fuel+1, a :: rest => do
    resolveExpr fuel a
    resolveArgs fuel rest

/-- src/resolver.rs resolve_function (lines 91-101): push a frame,
declare-and-define the parameters, resolve the body with the Result
DISCARDED (the source line has no question mark: a body error is
swallowed, though a panic still unwinds), pop the frame. -/
def resolve_function : Nat → List Token → List Stmt → RM Unit
  | 0, _, _ => EM.fuelOutM
  | fuel+1, params, body => do
    begin_scope
    declParams params
    let _ ← EM.capture (resolveList fuel body)
    end_scope

end

end Resolver

/-- src/resolver.rs new (lines 22-28): empty scope stack, empty table. -/
def newResolver : RState := { scopes := [], locals := [] }

end Saturday

namespace Saturday

/-- Modelled from the spec section 3 (environment.rs is absent from
src/): a mapping from variable name to value plus an optional reference
to the enclosing Environment. The shared Rc RefCell handle is an index
into the interpreter state environment arena. -/
structure Environment where
  values : List (String × Object)
  enclosing : Option Nat

/-- Modelled from the spec: Environment::new_with_enclosing, a fresh
empty scope chained to the given one (used by visit_block_stmt). -/
def Environment.newWithEnclosing (id : Nat) : Environment :=
  { values := [], enclosing := some id }

/-- Interpreter state, src/interpreter.rs lines 16-20 (globals, the
current-environment slot, the loop-nesting counter), extended with the
arenas realizing the Rc-shared environments and instances and with the
ordered print output (the observable effect of Print statements). -/
structure InterpState where
  envs : List Environment
  environment : Nat
  globals : Nat
  nest : Nat
  instances : List SaturdayInstance
  output : List String

abbrev IM (α : Type) : Type := EM InterpState α

/-- Lifts an already-computed outcome into a state-preserving step. -/
def liftRes (r : Res α) : EM σ α := fun s => (r, s)

/-- Modelled from the spec sections 3 and 4.3 (environment.rs is absent
from src/): variable lookup walks the environment chain outward and an
absent name is the undefined-variable runtime failure (the failure shape
is pinned by the interpreter test test_undefined_variable_expr). The
chain-walk recursion is fueled; enclosing links always point to earlier
arena entries, so any fuel above the arena size is enough. -/
def envGet (envs : List Environment) : Nat → Nat → Token → Res Object
  | 0, _, _ => .fuelOut
  | fuel+1, id, name =>
    match envs.get? id with
    | none => .panicked ("invalid environment id")
    | some env =>
      match tblLookup env.values name.as_string with
      | some v => .ok v
      | none =>
        match env.enclosing with
        | some e => envGet envs fuel e name
        | none => .thr (.runtimeError name ("Undefined variable \x27" ++ name.as_string ++ "\x27."))

/-- Modelled from the spec (environment.rs absent): define inserts or
overwrites the name in the addressed environment. -/
def envDefine (envs : List Environment) (id : Nat) (key : String) (value : Object) :
    List Environment :=
  match envs.get? id with
  | none => envs
  | some env => envs.set id { env with values := tblInsert env.values key value }

/-- Modelled from the spec (environment.rs absent): assignment walks the
chain outward to the first environment containing the name and updates
it there; an absent name is the undefined-variable runtime failure. -/
def envAssign (envs : List Environment) : Nat → Nat → Token → Object → Res (List Environment)
  | 0, _, _, _ => .fuelOut
  | fuel+1, id, name, value =>
    match envs.get? id with
    | none => .panicked ("invalid environment id")
    | some env =>
      if (tblLookup env.values name.as_string).isSome then
        .ok (envs.set id { env with values := tblInsert env.values name.as_string value })
      else
        match env.enclosing with
        | some e => envAssign envs fuel e name value
        | none => .thr (.runtimeError name ("Undefined variable \x27" ++ name.as_string ++ "\x27."))

/-- src/interpreter.rs is_truthy (lines 291-294): everything but Nil and
false is truthy. -/
def is_truthy : Object → Bool
  | .nil => false
  | .bool false => false
  | _ => true

/-- The operand/operator table of src/interpreter.rs visit_binary_expr
(lines 125-171), computing the result value of the match; none is the
todo! arm for two Num operands with an operator outside the supported
set (line 137-139). -/
def binaryCompute (left : Object) (op : TokenType) (right : Object) : Option Object :=
  match left, right with
  | .num l, .num r =>
    (match op with
     | .Minus => some (.num (l - r))
     | .Slash => some (.num (l / r))
     | .Star => some (.num (l * r))
     | .Plus => some (.num (l + r))
     | .Greater => some (.bool (decide (l > r)))
     | .GreaterEqual => some (.bool (decide (l ≥ r)))
     | .Less => some (.bool (decide (l < r)))
     | .LessEqual => some (.bool (decide (l ≤ r)))
     | .BangEqual => some (.bool (!(l == r)))
     | .Equal => some (.bool (l == r))
     | _ => none)
  | .num l, .str r =>
    (match op with
     | .Plus => some (.str (toString l ++ r))
     | _ => some .arithmeticError)
  | .str l, .num r =>
    (match op with
     | .Plus => some (.str (l ++ toString r))
     | _ => some .arithmeticError)
  | .str l, .str r =>
    (match op with
     | .Plus => some (.str (l ++ r))
     | .BangEqual => some (.bool (!(l == r)))
     | .Equal => some (.bool (l == r))
     | _ => some .arithmeticError)
  | .bool l, .bool r =>
    (match op with
     | .BangEqual => some (.bool (!(l == r)))
     | .Equal => some (.bool (l == r))
     | _ => some .arithmeticError)
  | .nil, .nil =>
    (match op with
     | .BangEqual => some (.bool false)
     | .Equal => some (.bool true)
     | _ => some .arithmeticError)
  | .nil, _ =>
    (match op with
     | .BangEqual => some (.bool true)
     | .Equal => some (.bool false)
     | _ => some .arithmeticError)
  | _, _ => some .arithmeticError

/-- The sentinel test of src/interpreter.rs line 173 (result ==
Object::ArithmeticError): the derived PartialEq compares constructors
first, so the comparison against the payload-free sentinel holds exactly
when the result is the sentinel. -/
def Object.isArithmeticError : Object → Bool
  | .arithmeticError => true
  | _ => false

/-- The tail of src/interpreter.rs visit_binary_expr (lines 120-181)
after both operands are evaluated: compute the table result (the todo!
arm panics), convert the sentinel into the Illegal expression runtime
failure at the operator token, return anything else. -/
def binary_step (left : Object) (operator : Token) (right : Object) : Res Object :=
  match binaryCompute left operator.tokenType right with
  | none => .panicked ("need to work on your code dude")
  | some result =>
    if result.isArithmeticError then .thr (.runtimeError operator ("Illegal expression"))
    else .ok result

def SaturdayClass.name : SaturdayClass → String
  | .mk n _ => n

/-- src/saturday_class.rs find_method (lines 29-31). -/
def SaturdayClass.find_method : SaturdayClass → String → Option Object
  | .mk _ methods, key => tblLookup methods key

/-- src/saturday_instance.rs new (lines 17-22). -/
def SaturdayInstance.new (class' : SaturdayClass) : SaturdayInstance :=
  { class' := class', fields := [] }

/-- src/callable.rs arity through its two implementations: the native
clock takes no arguments (spec section 6); a user function requires
exactly its parameter count (saturday_function.rs is absent from src/;
the count is pinned by spec section 4.3 arity checking). -/
def Callable.arity : Callable → Nat
  | .nativeClock => 0
  | .saturdayFunction _ params _ _ => params.length

/-- Parameter binding for a user-function call, Modelled from the spec
section 4.3 (saturday_function.rs absent): parameters are bound to the
arguments pairwise in the fresh call environment (the caller has already
checked the counts agree). -/
def bindParams : List Token → List Object → List (String × Object)
  | [], _ => []
  | _, [] => []
  | p :: ps, a :: rest => (p.as_string, a) :: bindParams ps rest

/-- Method-closure table for the spec-modelled Class statement: each
method statement becomes a closure over the defining environment (spec
section 4.3, Class). -/
def methodTable (envId : Nat) : List Stmt → List (String × Object)
  | [] => []
  | .function n params body :: rest =>
    (n.as_string, Object.func (.saturdayFunction n params body envId)) :: methodTable envId rest
  | _ :: rest => methodTable envId rest

/-- src/saturday_instance.rs get (lines 24-35): own field first, then
the class method table, else the undefined-property runtime failure. -/
def instanceGet (iid : Nat) (name : Token) : IM Object := fun s =>
  match s.instances.get? iid with
  | none => (.panicked ("invalid instance id"), s)
  | some inst =>
    match tblLookup inst.fields name.as_string with
    | some v => (.ok v, s)
    | none =>
      match inst.class'.find_method name.as_string with
      | some m => (.ok m, s)
      | none =>
        (.thr (.runtimeError name ("Undefined property \x27" ++ name.as_string ++ "\x27.")), s)

/-- src/saturday_instance.rs set (lines 37-39): insert or overwrite. -/
def instanceSet (iid : Nat) (name : Token) (value : Object) : IM Unit :=
  EM.modifyS (fun s =>
    match s.instances.get? iid with
    | none => s
    | some inst =>
      { s with instances :=
          s.instances.set iid { inst with fields := tblInsert inst.fields name.as_string value } })

/-- The textual representation printed by visit_print_stmt: the Display
impl of src/object.rs (lines 14-31); printing the sentinel is the panic
of line 28. Class and instance text follow the ToString impls of
src/saturday_class.rs and src/saturday_instance.rs. -/
def displayObject (s : InterpState) : Object → Option String
  | .num x => some (toString x)
  | .str x => some x
  | .bool x => if x then some ("true") else some ("false")
  | .func _ => some ("<func>")
  | .classObj c => some c.name
  | .instanceObj iid =>
    (match s.instances.get? iid with
     | some inst => some ("<Instance of " ++ inst.class'.name ++ ">")
     | none => some ("<Instance>"))
  | .nil => some ("nil")
  | .arithmeticError => none

end Saturday

namespace Saturday

namespace Interpreter

mutual

/-- src/interpreter.rs ExprVisitor impl (lines 109-251), dispatched over
the expression node. The Get and Set arms are Modelled from the spec
section 4.3 (this interpreter snapshot predates property access), using
the src/saturday_instance.rs table operations. -/
def evaluate : Nat → Expr → IM Object
  | 0, _ => EM.fuelOutM
  | fuel+1, e =>
    match e with
    | .assign name value => do
        let v ← evaluate fuel value
        (fun s =>
          match envAssign s.envs (s.envs.length + 1) s.environment name v with
          | .ok envs' => (.ok (), { s with envs := envs' })
          | .thr err => (.thr err, s)
          | .panicked m => (.panicked m, s)
          | .fuelOut => (.fuelOut, s))
        pure v
    | .binary l operator r => do
        let lv ← evaluate fuel l
        let rv ← evaluate fuel r
        liftRes (binary_step lv operator rv)
    | .call callee paren args => do
        let c ← evaluate fuel callee
        let arguments ← evalArgs fuel args
        (match c with
         | .func fn =>
           if arguments.length ≠ fn.arity then
             EM.throw (.runtimeError paren
               ("Expected " ++ toString fn.arity ++ " arguments but got "
                 ++ toString arguments.length ++ "."))
           else callFn fuel fn arguments
         | _ => EM.throw (.runtimeError paren ("Can only call function and classes")))
    | .get objE name => do
        let o ← evaluate fuel objE
        (match o with
         | .instanceObj iid => instanceGet iid name
         | _ => EM.throw (.runtimeError name ("Only instances have properties.")))
    | .set objE name value => do
        let o ← evaluate fuel objE
        (match o with
         | .instanceObj iid => do
             let v ← evaluate fuel value
             instanceSet iid name v
             pure v
         | _ => EM.throw (.runtimeError name ("Only instances have fields.")))
    | .grouping g => evaluate fuel g
    | .literal v =>
        (match v with
         | some o => pure o
         | none => EM.panics ("called Option::unwrap on a None value"))
    | .logical l operator r => do
        let left ← evaluate fuel l
        if operator.is .Or then
          if is_truthy left then pure left else evaluate fuel r
        else
          if !(is_truthy left) then pure left else evaluate fuel r
    | .unary operator r => do
        let right ← evaluate fuel r
        (match operator.tokenType with
         | .Minus =>
           (match right with
            | .num n => pure (Object.num (-n))
            | _ => pure Object.nil)
         | .Bang => pure (Object.bool (!(is_truthy right)))
         | _ => EM.throw (.lineError operator.line ("Unreachable according to Nystrom")))
    | .variable name =>
        fun s => (envGet s.envs (s.envs.length + 1) s.environment name, s)

/-- The argument loop of src/interpreter.rs visit_call_expr
(lines 185-188): arguments evaluate left to right. -/
def evalArgs : Nat → List Expr → IM (List Object)
  | 0, _ => EM.fuelOutM
  | _+1, [] => pure []
  | fuel+1, a :: rest => do
      let v ← evaluate fuel a
      let vs ← evalArgs fuel rest
      pure (v :: vs)

/-- Call dispatch through the Callable handle. The native clock arm is
Modelled from the spec section 6 (native_functions.rs absent; the clock
takes no arguments and yields a numeric timestamp, modelled as a fixed
number since no claim observes the time). The user-function arm is
Modelled from the spec sections 4.3 and 7 (saturday_function.rs absent):
bind the parameters in a fresh environment enclosing the captured
closure environment, run the body as a block, catch the Return signal
into the call result, and yield Nil for a body that finishes normally. -/
def callFn : Nat → Callable → List Object → IM Object
  | 0, _, _ => EM.fuelOutM
  | fuel+1, .nativeClock, _ => pure (Object.num 0)
  | fuel+1, .saturdayFunction _ params body closure, arguments => do
      let callEnv : Environment :=
        { values := bindParams params arguments, enclosing := some closure }
      let r ← EM.capture (execute_block fuel body callEnv)
      (match r with
       | .ok _ => pure Object.nil
       | .error (.returnValue v) => pure v
       | .error err => EM.throw err)

/-- src/interpreter.rs StmtVisitor impl (lines 22-107), dispatched over
the statement node. The Class arm is Modelled from the spec section 4.3
(this interpreter snapshot predates class statements): method bodies
become closures over the defining environment and the class value is
defined in the current environment. -/
def execute : Nat → Stmt → IM Unit
  | 0, _ => EM.fuelOutM
  | fuel+1, st =>
    match st with
    | .block statements => do
        let s ← EM.getS
        execute_block fuel statements (Environment.newWithEnclosing s.environment)
    | .breakStmt token =>
        fun s =>
          if s.nest = 0 then
            (.thr (.runtimeError token ("break outside of while/for loop")), s)
          else (.thr .breakSignal, s)
    | .expression e => do
        let _ ← evaluate fuel e
        pure ()
    | .function name params body => do
        let s ← EM.getS
        let fobj := Object.func (.saturdayFunction name params body s.environment)
        EM.modifyS (fun s' =>
          { s' with envs := envDefine s'.envs s'.environment name.as_string fobj })
    | .ifStmt c t els => do
        let v ← evaluate fuel c
        if is_truthy v then execute fuel t
        else
          (match els with
           | some el => execute fuel el
           | none => pure ())
    | .print e => do
        let value ← evaluate fuel e
        (fun s =>
          match displayObject s value with
          | some line => (.ok (), { s with output := s.output ++ [line] })
          | none => (.panicked ("Should not be trying to print this"), s))
    | .returnStmt _ v =>
        (match v with
         | some ve => do
             let value ← evaluate fuel ve
             EM.throw (.returnValue value)
         | none => EM.throw (.returnValue Object.nil))
    | .defStmt name init => do
        let value ← (match init with
          | some i => evaluate fuel i
          | none => pure Object.nil)
        EM.modifyS (fun s =>
          { s with envs := envDefine s.envs s.environment name.as_string value })
    | .whileStmt c b => do
        EM.modifyS (fun s => { s with nest := s.nest + 1 })
        whileLoop fuel c b
    | .classStmt name methods => do
        let s ← EM.getS
        let cobj := Object.classObj (.mk name.as_string (methodTable s.environment methods))
        EM.modifyS (fun s' =>
          { s' with envs := envDefine s'.envs s'.environment name.as_string cobj })

/-- The loop of src/interpreter.rs visit_while_stmt (lines 94-106): while
the condition is truthy run the body; a Break signal exits the Rust loop
and falls through to the decrement; any other failure returns early,
skipping the decrement; normal exhaustion falls through to the
decrement. A failure of the condition itself also propagates through the
question-mark operator without the decrement. -/
def whileLoop : Nat → Expr → Stmt → IM Unit
  | 0, _, _ => EM.fuelOutM
  | fuel+1, c, b => do
    let v ← evaluate fuel c
    if is_truthy v then do
      let r ← EM.capture (execute fuel b)
      (match r with
       | .error .breakSignal => EM.modifyS (fun s => { s with nest := s.nest - 1 })
       | .error err => EM.throw err
       | .ok _ => whileLoop fuel c b)
    else EM.modifyS (fun s => { s with nest := s.nest - 1 })

/-- src/interpreter.rs execute_block (lines 278-289): swap in the fresh
environment (allocated in the arena, modelling Rc::new), run the
statements, and restore the previous current-environment slot on the ok
and Err paths alike before returning the inner result. A panic unwinds
without the restore (the Rust replace line is skipped by unwinding), and
fuel exhaustion is treated the same way. -/
def execute_block : Nat → List Stmt → Environment → IM Unit
  | 0, _, _ => EM.fuelOutM
  | fuel+1, statements, environment => fun s =>
      let previous := s.environment
      let s1 := { s with envs := s.envs ++ [environment], environment := s.envs.length }
      match execList fuel statements s1 with
      | (.ok a, s2) => (.ok a, { s2 with environment := previous })
      | (.thr e, s2) => (.thr e, { s2 with environment := previous })
      | (.panicked m, s2) => (.panicked m, s2)
      | (.fuelOut, s2) => (.fuelOut, s2)

/-- The try_for_each of execute_block (lines 284-286): statements in
order, stopping at the first non-ok outcome. -/
def execList : Nat → List Stmt → IM Unit
  | 0, _ => EM.fuelOutM
  | _+1, [] => pure ()
  | fuel+1, st :: rest => do
      execute fuel st
      execList fuel rest

end

end Interpreter

/-- src/interpreter.rs new (lines 254-268): a single global environment
holding the native clock, the current slot pointing at it, nesting
counter zero. -/
def initState : InterpState :=
  { envs := [{ values := [("clock", Object.func Callable.nativeClock)], enclosing := none }],
    environment := 0, globals := 0, nest := 0, instances := [], output := [] }

/-- The statement loop of src/interpreter.rs interpreter (lines 299-304). -/
def Interpreter.interpLoop : Nat → List Stmt → IM Bool
  | fuel, [] => pure true
  | fuel, st :: rest => do
      let r ← EM.capture (Interpreter.execute fuel st)
      (match r with
       | .ok _ => Interpreter.interpLoop fuel rest
       | .error _ => pure false)

/-- src/interpreter.rs interpreter (lines 296-307): reset the nesting
counter, execute the statements top to bottom, stop at the first Err
with overall success false. -/
def Interpreter.interpreter (fuel : Nat) (statements : List Stmt) : IM Bool := do
  EM.modifyS (fun s => { s with nest := 0 })
  Interpreter.interpLoop fuel statements

end Saturday

namespace Saturday

/-- src/saturday_class.rs instantiate (lines 20-27): allocate a fresh
Instance referencing the given class (Rc::new is arena allocation) and
return it as an Object; the interpreter handle and the arguments are
unused by the source. -/
def SaturdayClass.instantiate (self : SaturdayClass) (arguments : List Object)
    (class' : SaturdayClass) (instances : List SaturdayInstance) :
    Res Object × List SaturdayInstance :=
  (.ok (.instanceObj instances.length), instances ++ [SaturdayInstance.new class'])

/-- src/saturday_class.rs, impl SaturdayCallable, call (lines 41-47):
calling a class through the callable capability fails with the
system error; instantiate is never invoked on this path. The interpreter
argument of the source is unused and omitted. -/
def SaturdayClass.call (self : SaturdayClass) (arguments : List Object) : Res Object :=
  .thr (.systemError ("tried to call a class"))

/-- src/saturday_class.rs, impl SaturdayCallable, arity (lines 49-51). -/
def SaturdayClass.arity (self : SaturdayClass) : Nat := 0

/-- The decision structure of src/main.rs run (lines 88-110) up to the
evaluation stage: parse propagates its Err out of run (skipping
everything), and a parse that returns statements still skips resolution
and evaluation when the sticky error flag is set (parser.success).
True means evaluation is skipped at the parsing stage. -/
def runSkipsEvaluation (fuel : Nat) (tokens : List Token) : Bool :=
  match Parser.parse fuel (newParser tokens) with
  | (.ok _, p) => p.had_error
  | (_, _) => true

end Saturday

namespace Saturday

attribute [simp] EM.pure_apply EM.bind_apply EM.throw_apply EM.getS_apply
attribute [simp] EM.modifyS_apply EM.capture_apply

mutual

/-- No call expression occurs in the expression: the fragment whose
evaluation never enters a callable body (src interpreter snapshot
without saturday_function.rs). -/
def callFreeE : Expr → Bool
  | .assign _ v => callFreeE v
  | .binary l _ r => callFreeE l && callFreeE r
  | .call _ _ _ => false
  | .get o _ => callFreeE o
  | .set o _ v => callFreeE o && callFreeE v
  | .grouping e => callFreeE e
  | .literal _ => true
  | .logical l _ r => callFreeE l && callFreeE r
  | .unary _ r => callFreeE r
  | .variable _ => true

/-- No call expression occurs in any expression the statement executes
(a function declaration only stores its body, so it qualifies). -/
def callFreeS : Stmt → Bool
  | .block ss => callFreeL ss
  | .breakStmt _ => true
  | .expression e => callFreeE e
  | .ifStmt c t els =>
    callFreeE c && callFreeS t &&
      (match els with
       | some el => callFreeS el
       | none => true)
  | .print e => callFreeE e
  | .defStmt _ init =>
    (match init with
     | some i => callFreeE i
     | none => true)
  | .whileStmt c b => callFreeE c && callFreeS b
  | .function _ _ _ => true
  | .returnStmt _ v =>
    (match v with
     | some ve => callFreeE ve
     | none => true)
  | .classStmt _ _ => true

def callFreeL : List Stmt → Bool
  | [] => true
  | st :: rest => callFreeS st && callFreeL rest

end

/-- The computation leaves the loop-nesting counter unchanged and never
produces the Break signal. -/
def NestPres (x : IM α) : Prop :=
  ∀ s, ((x s).2.nest = s.nest) ∧ (x s).1 ≠ Res.thr .breakSignal

/-- On an ok or Break-signal outcome the computation leaves the
loop-nesting counter unchanged. -/
def NestPresCtl (x : IM Unit) : Prop :=
  ∀ s, ((x s).1 = .ok () → (x s).2.nest = s.nest)
    ∧ ((x s).1 = Res.thr .breakSignal → (x s).2.nest = s.nest)

/-- A while loop entered with the counter already incremented: an ok exit
has decremented it once, and the Break signal never escapes. -/
def LoopPost (x : IM Unit) : Prop :=
  ∀ s, ((x s).1 = .ok () → (x s).2.nest = s.nest - 1)
    ∧ (x s).1 ≠ Res.thr .breakSignal

theorem NestPres.toCtl {x : IM Unit} (h : NestPres x) : NestPresCtl x := by
  intro s
  exact ⟨fun _ => (h s).1, fun _ => (h s).1⟩

theorem nestPres_pure (a : α) : NestPres (Pure.pure a : IM α) :=
  fun s => ⟨rfl, fun h => Res.noConfusion h⟩

theorem nestPres_throw {e : SaturdayResult} (he : e ≠ .breakSignal) :
    NestPres (EM.throw e : IM α) :=
  fun s => ⟨rfl, fun h => he (Res.thr.inj h)⟩

theorem nestPres_panics (m : String) : NestPres (EM.panics m : IM α) :=
  fun s => ⟨rfl, fun h => Res.noConfusion h⟩

theorem nestPres_fuelOut : NestPres (EM.fuelOutM : IM α) :=
  fun s => ⟨rfl, fun h => Res.noConfusion h⟩

theorem nestPres_liftRes {r : Res α} (h : r ≠ .thr .breakSignal) : NestPres (liftRes r) :=
  fun s => ⟨rfl, h⟩

theorem nestPres_bind {x : IM α} {f : α → IM β} (hx : NestPres x)
    (hf : ∀ a, NestPres (f a)) : NestPres (x >>= f) := by
  intro s
  cases hv : x s with
  | mk r s' =>
    have h1 := (hx s).1
    have h2 := (hx s).2
    rw [hv] at h1 h2
    simp only at h1 h2
    cases r with
    | ok a =>
      simp only [EM.bind_apply, hv]
      exact ⟨((hf a s').1).trans h1, (hf a s').2⟩
    | thr e =>
      simp only [EM.bind_apply, hv]
      refine ⟨h1, fun h => h2 ?_⟩
      rw [Res.thr.inj h]
    | panicked m =>
      simp only [EM.bind_apply, hv]
      exact ⟨h1, fun h => Res.noConfusion h⟩
    | fuelOut =>
      simp only [EM.bind_apply, hv]
      exact ⟨h1, fun h => Res.noConfusion h⟩

theorem nestPresCtl_throw (e : SaturdayResult) : NestPresCtl (EM.throw e : IM Unit) :=
  fun s => ⟨fun h => Res.noConfusion h, fun _ => rfl⟩

theorem nestPresCtl_bind {x : IM α} {f : α → IM Unit} (hx : NestPres x)
    (hf : ∀ a, NestPresCtl (f a)) : NestPresCtl (x >>= f) := by
  intro s
  cases hv : x s with
  | mk r s' =>
    have h1 := (hx s).1
    rw [hv] at h1
    simp only at h1
    cases r with
    | ok a =>
      simp only [EM.bind_apply, hv]
      exact ⟨fun h => ((hf a s').1 h).trans h1, fun h => ((hf a s').2 h).trans h1⟩
    | thr e =>
      simp only [EM.bind_apply, hv]
      exact ⟨fun h => Res.noConfusion h, fun _ => h1⟩
    | panicked m =>
      simp only [EM.bind_apply, hv]
      exact ⟨fun h => Res.noConfusion h, fun h => Res.noConfusion h⟩
    | fuelOut =>
      simp only [EM.bind_apply, hv]
      exact ⟨fun h => Res.noConfusion h, fun h => Res.noConfusion h⟩

theorem envGet_ne_break (envs : List Environment) :
    ∀ (fuel id : Nat) (name : Token), envGet envs fuel id name ≠ .thr .breakSignal := by
  intro fuel
  induction fuel with
  | zero => intro id name; simp [envGet]
  | succ n ih =>
    intro id name
    simp only [envGet]
    split
    · simp
    · split
      · simp
      · split
        · exact ih _ name
        · simp

theorem envAssign_ne_break (envs : List Environment) :
    ∀ (fuel id : Nat) (name : Token) (value : Object),
      envAssign envs fuel id name value ≠ .thr .breakSignal := by
  intro fuel
  induction fuel with
  | zero => intro id name value; simp [envAssign]
  | succ n ih =>
    intro id name value
    simp only [envAssign]
    split
    · simp
    · split
      · simp
      · split
        · exact ih _ name value
        · simp

end Saturday

namespace Saturday

theorem nestPres_getS : NestPres (EM.getS : IM InterpState) :=
  fun s => ⟨rfl, fun h => Res.noConfusion h⟩

theorem nestPres_modify {g : InterpState → InterpState} (hg : ∀ s, (g s).nest = s.nest) :
    NestPres (EM.modifyS g) :=
  fun s => ⟨hg s, fun h => Res.noConfusion h⟩

theorem binary_step_ne_break (l : Object) (t : Token) (r : Object) :
    binary_step l t r ≠ .thr .breakSignal := by
  unfold binary_step
  split
  · simp
  · split
    · simp
    · simp

theorem nestPres_instanceGet (iid : Nat) (name : Token) : NestPres (instanceGet iid name) := by
  intro s
  unfold instanceGet
  split
  · exact ⟨rfl, fun h => Res.noConfusion h⟩
  · split
    · exact ⟨rfl, fun h => Res.noConfusion h⟩
    · split
      · exact ⟨rfl, fun h => Res.noConfusion h⟩
      · exact ⟨rfl, fun h => SaturdayResult.noConfusion (Res.thr.inj h)⟩

theorem nestPres_instanceSet (iid : Nat) (name : Token) (value : Object) :
    NestPres (instanceSet iid name value) := by
  apply nestPres_modify
  intro s
  split <;> rfl

theorem nestPresCtl_seq {x : IM Unit} {f : Unit → IM Unit} (hx : NestPresCtl x)
    (hf : ∀ a, NestPresCtl (f a)) : NestPresCtl (x >>= f) := by
  intro s
  cases hv : x s with
  | mk r s' =>
    have h1 := (hx s).1
    have h2 := (hx s).2
    rw [hv] at h1 h2
    simp only at h1 h2
    cases r with
    | ok a =>
      cases a
      simp only [EM.bind_apply, hv]
      exact ⟨fun h => ((hf () s').1 h).trans (h1 rfl),
             fun h => ((hf () s').2 h).trans (h1 rfl)⟩
    | thr e =>
      simp only [EM.bind_apply, hv]
      exact ⟨fun h => Res.noConfusion h, fun h => by rw [Res.thr.inj h] at h2; exact h2 rfl⟩
    | panicked m =>
      simp only [EM.bind_apply, hv]
      exact ⟨fun h => Res.noConfusion h, fun h => Res.noConfusion h⟩
    | fuelOut =>
      simp only [EM.bind_apply, hv]
      exact ⟨fun h => Res.noConfusion h, fun h => Res.noConfusion h⟩

end Saturday

namespace Saturday
open Interpreter

set_option maxHeartbeats 1000000

theorem nestPresCtl_execute_block_zero (ss : List Stmt) (env : Environment) :
    NestPresCtl (Interpreter.execute_block 0 ss env) := by
  intro s
  simp [Interpreter.execute_block, EM.fuelOutM]

theorem nestPresCtl_execute_block {k : Nat} {ss : List Stmt}
    (hlist : NestPresCtl (Interpreter.execList k ss)) (env : Environment) :
    NestPresCtl (Interpreter.execute_block (k+1) ss env) := by
  intro s
  have h1 := (hlist { s with envs := s.envs ++ [env], environment := s.envs.length }).1
  have h2 := (hlist { s with envs := s.envs ++ [env], environment := s.envs.length }).2
  simp only [Interpreter.execute_block]
  cases hv : Interpreter.execList k ss
      { s with envs := s.envs ++ [env], environment := s.envs.length } with
  | mk r s2 =>
    rw [hv] at h1 h2
    simp only at h1 h2
    cases r with
    | ok a =>
      cases a
      simp only [hv]
      exact ⟨fun _ => by simpa using h1 rfl, fun h => absurd h (by simp)⟩
    | thr e =>
      simp only [hv]
      refine ⟨fun h => absurd h (by simp), fun h => ?_⟩
      have he : e = .breakSignal := by simpa using h
      subst he
      simpa using h2 rfl
    | panicked msg =>
      simp only [hv]
      exact ⟨fun h => absurd h (by simp), fun h => absurd h (by simp)⟩
    | fuelOut =>
      simp only [hv]
      exact ⟨fun h => absurd h (by simp), fun h => absurd h (by simp)⟩

theorem loopPost_whileLoop {m : Nat} {c : Expr} {b : Stmt}
    (hc : NestPres (Interpreter.evaluate m c))
    (hb : NestPresCtl (Interpreter.execute m b))
    (hw : LoopPost (Interpreter.whileLoop m c b)) :
    LoopPost (Interpreter.whileLoop (m+1) c b) := by
  intro s
  simp only [Interpreter.whileLoop]
  cases hv : Interpreter.evaluate m c s with
  | mk r s' =>
    have he1 := (hc s).1
    have he2 := (hc s).2
    rw [hv] at he1 he2
    simp only at he1 he2
    cases r with
    | ok v =>
      simp only [EM.bind_apply, hv]
      by_cases ht : is_truthy v = true
      · simp only [ht, if_true]
        cases hb2 : Interpreter.execute m b s' with
        | mk rb s'' =>
          have hx1 := (hb s').1
          have hx2 := (hb s').2
          rw [hb2] at hx1 hx2
          simp only at hx1 hx2
          cases rb with
          | ok a =>
            cases a
            simp only [EM.bind_apply, EM.capture_apply, hb2]
            refine ⟨fun h => ?_, (hw s'').2⟩
            rw [(hw s'').1 h, (hx1 rfl).trans he1]
          | thr e =>
            cases e <;> simp only [EM.bind_apply, EM.capture_apply, hb2] <;>
              first
                | (refine ⟨fun _ => ?_, by simp [EM.modifyS_apply]⟩
                   have hnn := hx2 rfl
                   simp only [EM.modifyS_apply]
                   omega)
                | (constructor
                   · intro h
                     exact absurd h (by simp)
                   · simp)
          | panicked msg =>
            simp only [EM.bind_apply, EM.capture_apply, hb2]
            exact ⟨fun h => absurd h (by simp), by simp⟩
          | fuelOut =>
            simp only [EM.bind_apply, EM.capture_apply, hb2]
            exact ⟨fun h => absurd h (by simp), by simp⟩
      · simp only [Bool.not_eq_true] at ht
        simp only [ht, Bool.false_eq_true, if_false]
        refine ⟨fun _ => ?_, by simp [EM.modifyS_apply]⟩
        simp only [EM.modifyS_apply]
        omega
    | thr e =>
      simp only [EM.bind_apply, hv]
      refine ⟨fun h => absurd h (by simp), fun h => he2 ?_⟩
      rw [Res.thr.inj h]
    | panicked msg =>
      simp only [EM.bind_apply, hv]
      exact ⟨fun h => absurd h (by simp), by simp⟩
    | fuelOut =>
      simp only [EM.bind_apply, hv]
      exact ⟨fun h => absurd h (by simp), by simp⟩

theorem nestMain : ∀ n : Nat,
    (∀ e : Expr, callFreeE e = true → NestPres (evaluate n e))
    ∧ (∀ st : Stmt, callFreeS st = true → NestPresCtl (execute n st))
    ∧ (∀ ss : List Stmt, callFreeL ss = true → NestPresCtl (execList n ss))
    ∧ (∀ (c : Expr) (b : Stmt), callFreeE c = true → callFreeS b = true →
        LoopPost (whileLoop n c b)) := by
  intro n
  induction n using Nat.strong_induction_on with
  | _ n ih =>
    cases n with
    | zero =>
      refine ⟨?_, ?_, ?_, ?_⟩
      · intro e _ s
        simp [evaluate, EM.fuelOutM]
      · intro st _ s
        simp [execute, EM.fuelOutM]
      · intro ss _ s
        simp [execList, EM.fuelOutM]
      · intro c b _ _ s
        simp [whileLoop, EM.fuelOutM]
    | succ m =>
      have ihm := ih m (Nat.lt_succ_self m)
      have Peval : ∀ e : Expr, callFreeE e = true → NestPres (evaluate (m+1) e) := by
        intro e he
        cases e
        next name value =>
          simp only [callFreeE] at he
          simp only [evaluate]
          apply nestPres_bind (ihm.1 value he)
          intro v
          apply nestPres_bind
          · intro s
            cases ha : envAssign s.envs (s.envs.length + 1) s.environment name v with
            | ok envs' => simp [ha]
            | thr e =>
              simp only [ha]
              refine ⟨by simp, fun h => envAssign_ne_break s.envs (s.envs.length + 1) s.environment name v ?_⟩
              rw [ha, Res.thr.inj h]
            | panicked msg => simp [ha]
            | fuelOut => simp [ha]
          · intro _
            exact nestPres_pure v
        next l operator r =>
          simp only [callFreeE, Bool.and_eq_true] at he
          simp only [evaluate]
          apply nestPres_bind (ihm.1 l he.1)
          intro lv
          apply nestPres_bind (ihm.1 r he.2)
          intro rv
          exact nestPres_liftRes (binary_step_ne_break lv operator rv)
        next callee paren args =>
          simp [callFreeE] at he
        next o name =>
          simp only [callFreeE] at he
          simp only [evaluate]
          apply nestPres_bind (ihm.1 o he)
          intro ov
          cases ov <;> first
            | exact nestPres_instanceGet _ _
            | exact nestPres_throw nofun
        next o name value =>
          simp only [callFreeE, Bool.and_eq_true] at he
          simp only [evaluate]
          apply nestPres_bind (ihm.1 o he.1)
          intro ov
          cases ov <;> first
            | (apply nestPres_bind (ihm.1 value he.2)
               intro v
               apply nestPres_bind (nestPres_instanceSet _ _ _)
               intro _
               exact nestPres_pure v)
            | exact nestPres_throw nofun
        next g =>
          simp only [callFreeE] at he
          simp only [evaluate]
          exact ihm.1 g he
        next v =>
          cases v with
          | some o =>
            simp only [evaluate]
            exact nestPres_pure o
          | none =>
            simp only [evaluate]
            exact nestPres_panics _
        next l operator r =>
          simp only [callFreeE, Bool.and_eq_true] at he
          simp only [evaluate]
          apply nestPres_bind (ihm.1 l he.1)
          intro left
          by_cases ho : operator.is .Or = true
          · simp only [ho, if_true]
            by_cases ht : is_truthy left = true
            · simp only [ht, if_true]
              exact nestPres_pure left
            · simp only [Bool.not_eq_true] at ht
              simp only [ht, if_false]
              exact ihm.1 r he.2
          · simp only [Bool.not_eq_true] at ho
            simp only [ho, if_false]
            by_cases ht : is_truthy left = true
            · simp only [ht, Bool.not_true, if_false]
              exact ihm.1 r he.2
            · simp only [Bool.not_eq_true] at ht
              simp only [ht, Bool.not_false, if_true]
              exact nestPres_pure left
        next operator r =>
          simp only [callFreeE] at he
          simp only [evaluate]
          apply nestPres_bind (ihm.1 r he)
          intro right
          cases hop : operator.tokenType <;>
            simp only [hop] <;>
            first
              | (cases right <;> exact nestPres_pure _)
              | exact nestPres_pure _
              | exact nestPres_throw nofun
        next name =>
          simp only [evaluate]
          intro s
          exact ⟨rfl, envGet_ne_break _ _ _ _⟩
      have Pexec : ∀ st : Stmt, callFreeS st = true → NestPresCtl (execute (m+1) st) := by
        intro st hs
        cases st
        next statements =>
          simp only [callFreeS] at hs
          simp only [execute]
          apply nestPresCtl_bind nestPres_getS
          intro s0
          cases m with
          | zero => exact nestPresCtl_execute_block_zero statements _
          | succ k =>
            exact nestPresCtl_execute_block ((ih k (by omega)).2.2.1 statements hs) _
        next token =>
          intro s
          simp only [execute]
          by_cases h0 : s.nest = 0
          · simp only [h0, if_pos]
            exact ⟨fun h => absurd h (by simp), fun h => absurd h (by simp)⟩
          · simp only [if_neg h0]
            exact ⟨fun h => absurd h (by simp), fun _ => trivial⟩
        next e =>
          simp only [callFreeS] at hs
          simp only [execute]
          exact nestPresCtl_bind (ihm.1 e hs) (fun _ => (nestPres_pure ()).toCtl)
        next c t els =>
          cases els with
          | some el =>
            simp only [callFreeS, Bool.and_eq_true] at hs
            simp only [execute]
            apply nestPresCtl_bind (ihm.1 c hs.1.1)
            intro v
            by_cases ht : is_truthy v = true
            · simp only [ht, if_true]
              exact ihm.2.1 t hs.1.2
            · simp only [Bool.not_eq_true] at ht
              simp only [ht, Bool.false_eq_true, if_false]
              exact ihm.2.1 el (by simpa using hs.2)
          | none =>
            simp only [callFreeS, Bool.and_eq_true] at hs
            simp only [execute]
            apply nestPresCtl_bind (ihm.1 c hs.1.1)
            intro v
            by_cases ht : is_truthy v = true
            · simp only [ht, if_true]
              exact ihm.2.1 t hs.1.2
            · simp only [Bool.not_eq_true] at ht
              simp only [ht, Bool.false_eq_true, if_false]
              exact (nestPres_pure ()).toCtl
        next e =>
          simp only [callFreeS] at hs
          simp only [execute]
          apply nestPresCtl_bind (ihm.1 e hs)
          intro v
          apply NestPres.toCtl
          intro s
          cases hd : displayObject s v with
          | some line => simp only [hd]; exact ⟨by simp, fun h => Res.noConfusion h⟩
          | none => simp only [hd]; exact ⟨by simp, fun h => Res.noConfusion h⟩
        next name init =>
          cases init with
          | some i =>
            simp only [execute]
            apply nestPresCtl_bind (ihm.1 i (by simpa using hs))
            intro v
            exact (nestPres_modify (fun s => rfl)).toCtl
          | none =>
            simp only [execute]
            apply nestPresCtl_bind (nestPres_pure Object.nil)
            intro v
            exact (nestPres_modify (fun s => rfl)).toCtl
        next c b =>
          simp only [callFreeS, Bool.and_eq_true] at hs
          intro s
          simp only [execute, EM.bind_apply, EM.modifyS_apply]
          have hwm := ihm.2.2.2 c b hs.1 hs.2 { s with nest := s.nest + 1 }
          refine ⟨fun h => ?_, fun h => absurd h hwm.2⟩
          have := hwm.1 h
          simp only at this
          omega
        next name params body =>
          simp only [execute]
          apply nestPresCtl_bind nestPres_getS
          intro s0
          exact (nestPres_modify (fun s => rfl)).toCtl
        next keyword v =>
          cases v with
          | some ve =>
            simp only [execute]
            exact nestPresCtl_bind (ihm.1 ve (by simpa using hs)) (fun a => nestPresCtl_throw _)
          | none =>
            simp only [execute]
            exact nestPresCtl_throw _
        next name methods =>
          simp only [execute]
          apply nestPresCtl_bind nestPres_getS
          intro s0
          exact (nestPres_modify (fun s => rfl)).toCtl
      have Plist : ∀ ss : List Stmt, callFreeL ss = true → NestPresCtl (execList (m+1) ss) := by
        intro ss hss
        cases ss with
        | nil =>
          simp only [execList]
          exact (nestPres_pure ()).toCtl
        | cons st rest =>
          simp only [callFreeL, Bool.and_eq_true] at hss
          simp only [execList]
          exact nestPresCtl_seq (ihm.2.1 st hss.1) (fun _ => ihm.2.2.1 rest hss.2)
      refine ⟨Peval, Pexec, Plist, ?_⟩
      intro c b hc hb
      exact loopPost_whileLoop (ihm.1 c hc) (ihm.2.1 b hb) (ihm.2.2.2 c b hc hb)

end Saturday

namespace Saturday

/-! Concrete inputs used by the claim theorems below. -/

def tkStar : Token := Token.mk .Star ("*") none 1

def tkSemi : Token := Token.mk .SemiColon (";") none 1

def tkPrint : Token := Token.mk .Print ("print") none 1

def tkStrA : Token := Token.mk .String ("a") (some (Object.str ("a"))) 1

def tkEof : Token := Token.mk .Eof ("") none 1

/-- A well-formed single statement stream: print "a"; -/
def demoSuffix : List Token := [tkPrint, tkStrA, tkSemi, tkEof]

/-- A malformed statement (a bare star) followed by the same well-formed
statement: * ; print "a"; -/
def demoFull : List Token := [tkStar, tkSemi, tkPrint, tkStrA, tkSemi, tkEof]

def tTrue : Expr := Expr.literal (some (Object.bool true))

def tFalse : Expr := Expr.literal (some (Object.bool false))

def tPlusTok : Token := Token.mk .Plus ("+") none 1

def tBreakTok : Token := Token.mk .Break ("break") none 1

def tCommaTok : Token := Token.mk .Comma (",") none 1

def tAndTok : Token := Token.mk .And ("and") none 1

def tOrTok : Token := Token.mk .Or ("or") none 1

def xTok : Token := Token.mk .Identifier ("x") none 1

def yTok : Token := Token.mk .Identifier ("y") none 1

/-- while true (with a body whose evaluation raises Illegal expression:
true + true). -/
def demoWhileErr : Stmt := Stmt.whileStmt tTrue (Stmt.expression (Expr.binary tTrue tPlusTok tTrue))

def strLit (s : String) : Expr := Expr.literal (some (Object.str s))

def demoInnerWhile : Stmt := Stmt.whileStmt tTrue (Stmt.breakStmt tBreakTok)

/-- while true { while true { break; } print "between"; break; } -/
def demoOuterWhile : Stmt := Stmt.whileStmt tTrue
  (Stmt.block [demoInnerWhile, Stmt.print (strLit ("between")), Stmt.breakStmt tBreakTok])

/-- The nested-break program followed by print "after"; . -/
def demoBreakProg : List Stmt := [demoOuterWhile, Stmt.print (strLit ("after"))]

/-- def x = x; with no outer x. -/
def demoSelfDef : Stmt := Stmt.defStmt xTok (some (Expr.variable xTok))

end Saturday

namespace Saturday

/-- C1, counterexample: the claim says a malformed statement does not abort
parsing of the whole program and the subsequent statements are parsed. On the
stream star-semicolon-print-string-semicolon-eof, whose suffix after the
malformed statement is well formed on its own (second conjunct), parse
returns the typed parse failure of the malformed statement and no statement
list at all: the question-mark operator in Parser::parse propagates the
error out of the loop. -/
theorem C1_counterexample :
    (Parser.parse 64 (newParser demoFull)).1
        = .thr (.parseError tkStar ("Expect expression."))
      ∧ (Parser.parse 64 (newParser demoSuffix)).1
        = .ok [Stmt.print (Expr.literal (some (Object.str ("a"))))] :=
  ⟨rfl, rfl⟩

/-- C1, amended claim: the parser reports a typed parse failure for the
malformed statement and synchronize discards tokens up to a statement
boundary (end of input, a just-consumed semicolon, or a token that begins a
declaration or statement), but Parser::parse then propagates the failure, so
the subsequent statements are not parsed; the run is marked unsuccessful and
evaluation is skipped (also when parsing succeeded with the sticky error
flag set). -/
theorem C1_amended :
    (∀ (fuel : Nat) (p p' : ParserState) (e : SaturdayResult) (tk : Token),
        p.tokens[p.current]? = some tk → tk.is .Eof = false →
        Parser.declaration fuel p = (.thr e, p') →
        Parser.parse (fuel+1) p = (.thr e, p'))
    ∧ (∀ (fuel : Nat) (p p' : ParserState),
        Parser.syncLoop fuel p = (.ok (), p') →
        (∃ t, p'.tokens[p'.current]? = some t
           ∧ (t.is .Eof = true ∨ Parser.declStart t.tokenType = true))
        ∨ (p'.current ≠ 0 ∧ ∃ pr, p'.tokens[p'.current - 1]? = some pr
             ∧ pr.is .SemiColon = true))
    ∧ (∀ (fuel : Nat) (tokens : List Token),
        ((∃ e p, Parser.parse fuel (newParser tokens) = (.thr e, p))
          ∨ (∃ stmts p, Parser.parse fuel (newParser tokens) = (.ok stmts, p)
               ∧ p.had_error = true)) →
        runSkipsEvaluation fuel tokens = true) := by
  refine ⟨?_, ?_, ?_⟩
  · intro fuel p p' e tk htk heof hdecl
    have hend : Parser.is_at_end p = (.ok false, p) := by
      simp [Parser.is_at_end, Parser.peekM, EM.bind_apply, htk, heof]
    simp [Parser.parse, EM.bind_apply, hend, hdecl]
  · intro fuel
    induction fuel with
    | zero =>
      intro p p' h
      simp [Parser.syncLoop, EM.fuelOutM] at h
    | succ n ihn =>
      intro p p' h
      cases htk : p.tokens[p.current]? with
      | none =>
        have hend : Parser.is_at_end p = (.panicked ("index out of bounds"), p) := by
          simp [Parser.is_at_end, Parser.peekM, EM.bind_apply, htk]
        simp [Parser.syncLoop, EM.bind_apply, hend] at h
      | some t =>
        have hend : Parser.is_at_end p = (.ok (t.is .Eof), p) := by
          simp [Parser.is_at_end, Parser.peekM, EM.bind_apply, htk]
        by_cases he : t.is .Eof = true
        · rw [Parser.syncLoop] at h
          simp only [EM.bind_apply, hend, he, if_true, EM.pure_apply] at h
          have h2 : p = p' := congrArg Prod.snd h
          subst h2
          exact Or.inl ⟨t, htk, Or.inl he⟩
        · rw [Parser.syncLoop] at h
          simp only [Bool.not_eq_true] at he
          simp only [EM.bind_apply, hend, he, Bool.false_eq_true, if_false] at h
          by_cases hc0 : p.current = 0
          · have hprev : Parser.previousM p
                = (.panicked ("attempt to subtract with overflow"), p) := by
              simp [Parser.previousM, hc0]
            simp [EM.bind_apply, hprev] at h
          · cases hpr : p.tokens[p.current - 1]? with
            | none =>
              have hprev : Parser.previousM p = (.panicked ("index out of bounds"), p) := by
                simp [Parser.previousM, hc0, hpr]
              simp [EM.bind_apply, hprev] at h
            | some pr =>
              have hprev : Parser.previousM p = (.ok pr, p) := by
                simp [Parser.previousM, hc0, hpr]
              simp only [EM.bind_apply, hprev] at h
              by_cases hsemi : pr.is .SemiColon = true
              · simp only [hsemi, if_true, EM.pure_apply] at h
                have h2 : p = p' := congrArg Prod.snd h
                subst h2
                exact Or.inr ⟨hc0, pr, hpr, hsemi⟩
              · simp only [Bool.not_eq_true] at hsemi
                simp only [hsemi, Bool.false_eq_true, if_false] at h
                have hpk : Parser.peekM p = (.ok t, p) := by simp [Parser.peekM, htk]
                simp only [EM.bind_apply, hpk] at h
                by_cases hds : Parser.declStart t.tokenType = true
                · simp only [hds, if_true, EM.pure_apply] at h
                  have h2 : p = p' := congrArg Prod.snd h
                  subst h2
                  exact Or.inl ⟨t, htk, Or.inr hds⟩
                · simp only [Bool.not_eq_true] at hds
                  simp only [hds, Bool.false_eq_true, if_false] at h
                  have hadv : Parser.advance p = (.ok t, { p with current := p.current + 1 }) := by
                    simp [Parser.advance, EM.bind_apply, hend, he, Parser.previousM,
                      EM.modifyS_apply, htk]
                  simp only [EM.bind_apply, hadv] at h
                  exact ihn _ p' h
  · intro fuel tokens h
    unfold runSkipsEvaluation
    rcases h with ⟨e, p, hp⟩ | ⟨stmts, p, hp, hhe⟩
    · rw [hp]
    · rw [hp]
      simpa using hhe

end Saturday

namespace Saturday

/-- C1 witness: the amended claim applied to the concrete malformed stream
of the counterexample. -/
theorem C1_witness :
    Parser.parse 64 (newParser demoFull)
        = (.thr (.parseError tkStar ("Expect expression.")),
           { tokens := demoFull, current := 2, had_error := false })
      ∧ runSkipsEvaluation 64 demoFull = true :=
  ⟨C1_amended.1 63 (newParser demoFull)
      { tokens := demoFull, current := 2, had_error := false }
      (.parseError tkStar ("Expect expression.")) tkStar rfl rfl rfl,
   C1_amended.2.2 64 demoFull
     (Or.inl ⟨.parseError tkStar ("Expect expression."),
       { tokens := demoFull, current := 2, had_error := false }, rfl⟩)⟩

end Saturday

namespace Saturday

/-- C2, failing input: the claim says that visiting a variable reference
while a scope frame is active searches the scope stack from innermost
outward and that a reference to a name declared only in an enclosing scope
completes without failing or panicking. With the scope stack holding an
innermost frame (only x, initialized) above an enclosing frame declaring y,
visiting the variable y panics: visit_variable_expr unwraps the innermost
get of a missing key instead of searching outward. -/
theorem C2_code_bug :
    Resolver.visit_variable_expr yTok
        { scopes := [[("x", true)], [("y", true)]], locals := [] }
      = (.panicked ("called Option::unwrap on a None value"),
         { scopes := [[("x", true)], [("y", true)]], locals := [] }) := rfl

/-- C3, counterexample: the claim says the loop-nesting counter returns to
its pre-loop value on every exit path including a propagated failure. For
while true with a body raising Illegal expression, the While statement
propagates the failure with the counter still incremented: nest goes from
0 to 1 and stays 1. -/
theorem C3_counterexample :
    (Interpreter.execute 6 demoWhileErr initState).1
        = .thr (.runtimeError tPlusTok ("Illegal expression"))
      ∧ (Interpreter.execute 6 demoWhileErr initState).2.nest = 1
      ∧ initState.nest = 0 :=
  ⟨rfl, rfl, rfl⟩

/-- C3, amended claim: for a While statement whose condition and body are
free of call expressions, the counter is incremented on entry and
decremented on the normal and Break exits, so whenever the While itself
completes with an ok outcome the counter has returned to its pre-loop
value; on a propagated failure the decrement is skipped (counterexample
above). -/
theorem C3_amended (fuel : Nat) (c : Expr) (b : Stmt) (s : InterpState)
    (hc : callFreeE c = true) (hb : callFreeS b = true)
    (hok : (Interpreter.execute fuel (Stmt.whileStmt c b) s).1 = .ok ()) :
    (Interpreter.execute fuel (Stmt.whileStmt c b) s).2.nest = s.nest :=
  ((nestMain fuel).2.1 (Stmt.whileStmt c b) (by simp [callFreeS, hc, hb]) s).1 hok

/-- C3 witness: the amended claim applied to a while loop with a false
condition executed from the initial state. -/
theorem C3_witness :
    (Interpreter.execute 3 (Stmt.whileStmt tFalse (Stmt.expression tTrue)) initState).1
        = .ok ()
      ∧ (Interpreter.execute 3 (Stmt.whileStmt tFalse (Stmt.expression tTrue)) initState).2.nest
        = initState.nest :=
  ⟨rfl, C3_amended 3 tFalse (Stmt.expression tTrue) initState rfl rfl rfl⟩

end Saturday

namespace Saturday

/-- C4, counterexample: the claim says two Num operands with an operator
outside the supported set yield the ArithmeticError sentinel converted to
the runtime failure Illegal expression at the operator token. Evaluating
1 comma-operator 2 instead panics in the todo! arm of visit_binary_expr,
and the panic is not that runtime failure. -/
theorem C4_counterexample :
    (Interpreter.evaluate 2 (Expr.binary (Expr.literal (some (Object.num 1))) tCommaTok
        (Expr.literal (some (Object.num 2)))) initState)
      = (.panicked ("need to work on your code dude"), initState)
    ∧ (Res.panicked ("need to work on your code dude") : Res Object)
        ≠ .thr (.runtimeError tCommaTok ("Illegal expression")) :=
  ⟨rfl, fun h => Res.noConfusion h⟩

/-- C4, amended claim: the binary-operator step never returns the
ArithmeticError sentinel as a value; every operand/operator combination
that the table maps to the sentinel is converted into the runtime failure
Illegal expression at the operator token; but two Num operands with an
operator outside the supported arithmetic/comparison/equality set panic in
the todo! arm instead of producing the sentinel. -/
theorem C4_amended (left right : Object) (operator : Token) :
    (∀ o : Object, binary_step left operator right = .ok o → o.isArithmeticError = false)
    ∧ (binaryCompute left operator.tokenType right = some .arithmeticError →
        binary_step left operator right = .thr (.runtimeError operator ("Illegal expression")))
    ∧ (∀ x y : Float,
        operator.tokenType ∉ ([.Minus, .Slash, .Star, .Plus, .Greater, .GreaterEqual,
          .Less, .LessEqual, .BangEqual, .Equal] : List TokenType) →
        binary_step (.num x) operator (.num y)
          = .panicked ("need to work on your code dude")) := by
  refine ⟨?_, ?_, ?_⟩
  · intro o h
    unfold binary_step at h
    cases hc : binaryCompute left operator.tokenType right with
    | none => rw [hc] at h; exact absurd h (by simp)
    | some res =>
      rw [hc] at h
      by_cases ha : res.isArithmeticError = true
      · simp only [ha, if_true] at h
        exact absurd h (by simp)
      · simp only [Bool.not_eq_true] at ha
        simp only [ha, Bool.false_eq_true, if_false] at h
        have : res = o := Res.ok.inj h
        rw [← this]
        exact ha
  · intro h
    simp [binary_step, h, Object.isArithmeticError]
  · intro x y hmem
    cases ht : operator.tokenType <;>
      first
        | (rw [ht] at hmem; exact absurd (by decide) hmem)
        | (simp [binary_step, binaryCompute, ht])

/-- C4 witness: the amended claim applied at concrete inputs: two Bool
operands under the and-token map to the sentinel and come back as the
Illegal expression failure, and two Num operands under the and-token hit
the todo! panic. -/
theorem C4_witness :
    binary_step (.bool true) tAndTok (.bool true)
        = .thr (.runtimeError tAndTok ("Illegal expression"))
      ∧ binary_step (.num 1) tAndTok (.num 2)
        = .panicked ("need to work on your code dude") :=
  ⟨(C4_amended (.bool true) (.bool true) tAndTok).2.1 rfl,
   (C4_amended (.num 1) (.num 2) tAndTok).2.2 1 2 (by decide)⟩

end Saturday

namespace Saturday

/-- C5, counterexample: the claim says calling a Class value as a callable
constructs and returns a new Instance referencing that class. Calling a
concrete class through the SaturdayCallable call implementation (with the
argument count matching the declared arity zero) instead fails with the
system error - tried to call a class - and returns no Instance. -/
theorem C5_counterexample :
    SaturdayClass.call (.mk ("Foo") []) [] = .thr (.systemError ("tried to call a class")) :=
  rfl

/-- C5, amended claim: the SaturdayCallable call implementation of a class
always fails with the system error - tried to call a class - whatever the
arguments (the declared arity is zero); only the separate instantiate
method, which call never invokes, allocates and returns a new Instance
referencing the given class. -/
theorem C5_amended (c class' : SaturdayClass) (arguments : List Object)
    (instances : List SaturdayInstance) :
    SaturdayClass.call c arguments = .thr (.systemError ("tried to call a class"))
    ∧ SaturdayClass.arity c = 0
    ∧ (SaturdayClass.instantiate c arguments class' instances).1
        = .ok (.instanceObj instances.length)
    ∧ (SaturdayClass.instantiate c arguments class' instances).2[instances.length]?
        = some (SaturdayInstance.new class') :=
  ⟨rfl, rfl, rfl, by simp [SaturdayClass.instantiate]⟩

/-- C6, counterexample: the claim says resolving def x = x; with no outer
x fails resolution with the self-reference error. At the top level the
scope stack is empty, declare and define are no-ops and the variable
reference falls through to resolve_local, so resolution completes with no
error and no recorded resolution at all. -/
theorem C6_counterexample :
    Resolver.resolveList 64 [demoSelfDef] newResolver = (.ok (), newResolver) := rfl

/-- C6, amended claim: visiting a variable whose name is marked
not-yet-initialized in the innermost active scope fails with the
self-reference error (so def x = x; inside any block fails resolution,
second conjunct), but at the top level, where no scope frame is active,
def x = x; resolves without error (counterexample above) and the failure
surfaces only at evaluation time: a Def statement whose initializer
evaluation fails propagates that failure without defining the name (third
conjunct), executing top-level def x = x; from the initial state raises
the undefined-variable runtime error and leaves the state unchanged
(fourth conjunct), and afterwards x is still unbound in the current
environment chain — it was never silently bound to nil (fifth conjunct). -/
theorem C6_amended :
    (∀ (name : Token) (r : RState) (sc : List (String × Bool))
        (rest : List (List (String × Bool))),
        r.scopes = sc :: rest →
        tblLookup sc name.as_string = some false →
        Resolver.visit_variable_expr name r
          = (.thr (.runtimeError name
              ("Can\x27t read local variable in its own initializer.")), r))
    ∧ (Resolver.resolveStmt 64 (Stmt.block [demoSelfDef]) newResolver).1
        = .thr (.runtimeError xTok
            ("Can\x27t read local variable in its own initializer."))
    ∧ (∀ (fuel : Nat) (name : Token) (init : Expr) (s s' : InterpState)
        (e : SaturdayResult),
        Interpreter.evaluate fuel init s = (.thr e, s') →
        Interpreter.execute (fuel+1) (Stmt.defStmt name (some init)) s = (.thr e, s'))
    ∧ Interpreter.execute 4 demoSelfDef initState
        = (.thr (.runtimeError xTok ("Undefined variable \x27x\x27.")), initState)
    ∧ envGet (Interpreter.execute 4 demoSelfDef initState).2.envs
        ((Interpreter.execute 4 demoSelfDef initState).2.envs.length + 1)
        (Interpreter.execute 4 demoSelfDef initState).2.environment xTok
        = .thr (.runtimeError xTok ("Undefined variable \x27x\x27.")) := by
  refine ⟨?_, rfl, ?_, rfl, rfl⟩
  · intro name r sc rest hsc hlk
    unfold Resolver.visit_variable_expr
    simp only [hsc, hlk]
  · intro fuel name init s s' e hv
    simp [Interpreter.execute, EM.bind_apply, hv]

/-- C6 witness: the general self-initializer rule applied to a concrete
one-frame stack in which x is declared but not yet initialized, and the
initializer-failure rule applied to the concrete top-level def x = x;
whose initializer is the undefined variable x. -/
theorem C6_witness :
    (Resolver.visit_variable_expr xTok { scopes := [[("x", false)]], locals := [] }
      = (.thr (.runtimeError xTok
          ("Can\x27t read local variable in its own initializer.")),
         { scopes := [[("x", false)]], locals := [] }))
    ∧ Interpreter.execute 4 demoSelfDef initState
        = (.thr (.runtimeError xTok ("Undefined variable \x27x\x27.")), initState) :=
  ⟨C6_amended.1 xTok { scopes := [[("x", false)]], locals := [] } [("x", false)] [] rfl rfl,
   C6_amended.2.2.1 3 xTok (Expr.variable xTok) initState initState
     (.runtimeError xTok ("Undefined variable \x27x\x27.")) rfl⟩

end Saturday

namespace Saturday

/-- C7: break with the nesting counter at zero is the runtime failure
break outside of while/for loop; with the counter positive it is the
distinguished Break signal; a body finishing with the Break signal ends
the innermost while loop with an ok outcome (the signal is swallowed
there and the counter decremented); and in the end-to-end nested-loop
program the inner break ends only the inner loop — the print between the
inner break and the outer break still runs — the outer break ends the
outer loop, the statement after the loop runs, and the whole run
succeeds. -/
theorem C7_theorem :
    (∀ (fuel : Nat) (token : Token) (s : InterpState), s.nest = 0 →
        Interpreter.execute (fuel+1) (Stmt.breakStmt token) s
          = (.thr (.runtimeError token ("break outside of while/for loop")), s))
    ∧ (∀ (fuel : Nat) (token : Token) (s : InterpState), s.nest ≠ 0 →
        Interpreter.execute (fuel+1) (Stmt.breakStmt token) s = (.thr .breakSignal, s))
    ∧ (∀ (fuel : Nat) (c : Expr) (b : Stmt) (s s' s'' : InterpState) (v : Object),
        Interpreter.evaluate fuel c s = (.ok v, s') → is_truthy v = true →
        Interpreter.execute fuel b s' = (.thr .breakSignal, s'') →
        Interpreter.whileLoop (fuel+1) c b s
          = (.ok (), { s'' with nest := s''.nest - 1 }))
    ∧ ((Interpreter.interpreter 16 demoBreakProg initState).1 = .ok true
        ∧ (Interpreter.interpreter 16 demoBreakProg initState).2.output
            = [("between"), ("after")]) := by
  refine ⟨?_, ?_, ?_, rfl, rfl⟩
  · intro fuel token s h0
    simp [Interpreter.execute, h0]
  · intro fuel token s h0
    simp [Interpreter.execute, h0]
  · intro fuel c b s s' s'' v hv ht hb
    simp [Interpreter.whileLoop, EM.bind_apply, hv, ht, EM.capture_apply, hb, EM.modifyS_apply]

/-- C7 witness: the break-outside-loop failure at the initial state and
the Break swallow applied to a concrete loop whose body is a bare break. -/
theorem C7_witness :
    Interpreter.execute 1 (Stmt.breakStmt tBreakTok) initState
        = (.thr (.runtimeError tBreakTok ("break outside of while/for loop")), initState)
      ∧ Interpreter.whileLoop 2 tTrue (Stmt.breakStmt tBreakTok) { initState with nest := 1 }
        = (.ok (), { initState with nest := 1 - 1 }) :=
  ⟨C7_theorem.1 0 tBreakTok initState rfl,
   C7_theorem.2.2.1 1 tTrue (Stmt.breakStmt tBreakTok) { initState with nest := 1 }
     { initState with nest := 1 } { initState with nest := 1 } (Object.bool true) rfl rfl rfl⟩

/-- C8: truthiness is false exactly for Nil and false (in particular the
number zero and the empty string are truthy), and a Logical expression
evaluates its left operand first: when the operator is Or and the left
value is truthy, or the operator is not Or and the left value is falsy,
the left value and its state are returned with the right operand never
evaluated (the conclusion does not mention r); otherwise the result is
exactly the evaluation of the right operand from the left state. -/
theorem C8_theorem :
    (∀ o : Object, is_truthy o = false ↔ (o = .nil ∨ o = .bool false))
    ∧ (∀ x : Float, is_truthy (.num x) = true)
    ∧ (∀ str : String, is_truthy (.str str) = true)
    ∧ (∀ (fuel : Nat) (l r : Expr) (operator : Token) (s s' : InterpState) (v : Object),
        Interpreter.evaluate fuel l s = (.ok v, s') →
        ((operator.is .Or = true → is_truthy v = true →
            Interpreter.evaluate (fuel+1) (.logical l operator r) s = (.ok v, s'))
         ∧ (operator.is .Or = false → is_truthy v = false →
            Interpreter.evaluate (fuel+1) (.logical l operator r) s = (.ok v, s'))
         ∧ (operator.is .Or = true → is_truthy v = false →
            Interpreter.evaluate (fuel+1) (.logical l operator r) s
              = Interpreter.evaluate fuel r s')
         ∧ (operator.is .Or = false → is_truthy v = true →
            Interpreter.evaluate (fuel+1) (.logical l operator r) s
              = Interpreter.evaluate fuel r s'))) := by
  refine ⟨?_, fun x => rfl, fun str => rfl, ?_⟩
  · intro o
    cases o with
    | num x => simp [is_truthy]
    | str s2 => simp [is_truthy]
    | bool b => cases b <;> simp [is_truthy]
    | func c => simp [is_truthy]
    | classObj c => simp [is_truthy]
    | instanceObj i => simp [is_truthy]
    | nil => simp [is_truthy]
    | arithmeticError => simp [is_truthy]
  · intro fuel l r operator s s' v hv
    refine ⟨?_, ?_, ?_, ?_⟩ <;> intro ho ht <;>
      simp [Interpreter.evaluate, EM.bind_apply, hv, ho, ht]

/-- C8 witness: or with a true left operand returns the left value from
an unchanged state although the right operand is an undefined variable
whose evaluation would fail. -/
theorem C8_witness :
    Interpreter.evaluate 2 (Expr.logical tTrue tOrTok (Expr.variable yTok)) initState
      = (.ok (Object.bool true), initState) :=
  (C8_theorem.2.2.2 1 tTrue (Expr.variable yTok) tOrTok initState initState
      (Object.bool true) rfl).1 rfl rfl

/-- C9: execute_block swaps in the fresh environment and restores the
previous current-environment slot on the ok and Err exit paths alike
(normal completion, error, or a Break/Return signal, which all travel the
Err channel), so the slot after the block equals the slot before; and a
Block statement runs execute_block on a fresh child environment whose
enclosing reference is the current slot. -/
theorem C9_theorem :
    (∀ (fuel : Nat) (statements : List Stmt) (env : Environment) (s : InterpState),
        ((Interpreter.execute_block fuel statements env s).1 = .ok ()
          ∨ (∃ e, (Interpreter.execute_block fuel statements env s).1 = .thr e)) →
        ((Interpreter.execute_block fuel statements env s).2).environment = s.environment)
    ∧ (∀ (fuel : Nat) (statements : List Stmt) (s : InterpState),
        Interpreter.execute (fuel+1) (Stmt.block statements) s
          = Interpreter.execute_block fuel statements
              (Environment.newWithEnclosing s.environment) s) := by
  constructor
  · intro fuel statements env s h
    cases fuel with
    | zero =>
      rcases h with h | ⟨e, h⟩ <;> simp [Interpreter.execute_block, EM.fuelOutM] at h
    | succ k =>
      simp only [Interpreter.execute_block] at h ⊢
      cases hv : Interpreter.execList k statements
          { s with envs := s.envs ++ [env], environment := s.envs.length } with
      | mk r s2 =>
        cases r with
        | ok a => simp
        | thr e => simp
        | panicked msg =>
          rw [hv] at h
          rcases h with h | ⟨e, h⟩ <;> simp at h
        | fuelOut =>
          rw [hv] at h
          rcases h with h | ⟨e, h⟩ <;> simp at h
  · intro fuel statements s
    rfl

/-- C9 witness: the restoration applied to a concrete block whose single
statement fails with an undefined-variable error. -/
theorem C9_witness :
    ((Interpreter.execute_block 4 [Stmt.expression (Expr.variable yTok)]
        (Environment.newWithEnclosing 0) initState).2).environment
      = initState.environment :=
  C9_theorem.1 4 [Stmt.expression (Expr.variable yTok)] (Environment.newWithEnclosing 0)
    initState (Or.inr ⟨.runtimeError yTok ("Undefined variable \x27y\x27."), rfl⟩)

/-- C10, failing input: the claim says the resolver visits every statement
form the parser can produce, including Break statements, without
panicking. Visiting a Break statement panics: visit_break_stmt is an
unfinished todo. -/
theorem C10_code_bug :
    Resolver.resolveStmt 1 (Stmt.breakStmt tBreakTok) newResolver
      = (.panicked ("not yet implemented"), newResolver) := rfl

end Saturday
